import Mathlib

/-!
# Formal model of the frapp-api ticketed audio-session engine

A shallow embedding, in Lean 4, of the core data structures and operations of
the `frapp-api` Cloudflare worker:

* the `RingBuffer` pre-roll buffer (`src/app/wav_utils.ts`),
* the WAV assembler `createOptimizedWavBlob` (`src/app/wav_utils.ts`),
* the ticket store and `validateAndConsumeTicket` (`src/store/kv/index.ts`),
* the ticket issuer `WebSocketTicket.handle` (`src/endpoints/websocket-ticket.ts`),
* the connection handler `handleWebSocket` (`src/endpoints/websocket.ts`),
* the archiver `OptimizedAudioStorage` (`src/app/audio-storage.ts`) and the R2
  key generation of `R2FileStorage.uploadFile` (`src/store/r2/file-storage.ts`),
* the per-message session logic `handleAudioMessage` and the surrounding
  message listener of `handleSecureAudioSession` (`src/app/audio-utils.ts`).

Machine integers of the source are modelled as `Nat`/`Int` (JavaScript numbers
stay well inside the exact-integer range of IEEE doubles at every operation
modelled here, except where noted); JavaScript `%`, which is a truncated
remainder, is modelled by `jsMod`; typed-array writes that can throw
`RangeError` are modelled by operations that return the faulted state together
with an error marker.
-/

/-! ## JavaScript arithmetic helpers -/

/-- The JavaScript `%` operator on integers: truncated remainder (the result has
the sign of the dividend).  For a nonnegative dividend it agrees with `Int.emod`
for positive `n`. -/
def jsMod (a : Int) (n : Int) : Int :=
  if 0 ≤ a then a % n else -((-a) % n)

/-! ## Ring buffer (`class RingBuffer`, `src/app/wav_utils.ts`)

The JS class stores `maxBytes`, a backing `Uint8Array` of `2 * maxBytes`
bytes, a `start` index and a `length`.  The backing array is modelled as a
total function `Nat → Nat` over the index space `[0, 2*maxBytes)`; bytes are
`Nat` values.  `length` is an `Int` because the JS code can drive it negative
(when a single `append` is larger than `maxBytes`, `removeLength` exceeds the
current length). -/

structure RingBuffer where
  maxBytes : Nat
  buffer : Nat → Nat
  start : Int
  length : Int

/-- `new RingBuffer(maxBytes)`: zeroed backing store of `2 * maxBytes` bytes. -/
def RingBuffer.ofCapacity (maxBytes : Nat) : RingBuffer :=
  { maxBytes := maxBytes, buffer := fun _ => 0, start := 0, length := 0 }

/-- `TypedArray.prototype.set(data, offset)` on a target of length `bufLen`:
throws a `RangeError` when `offset < 0` or `offset + data.length > bufLen`,
otherwise overwrites `bufLen`-indexed cells `offset .. offset+data.length-1`.
Returns `none` on the throw (the target is unmodified in that case). -/
def typedArraySet (buf : Nat → Nat) (bufLen : Nat) (data : List Nat)
    (offset : Int) : Option (Nat → Nat) :=
  if offset < 0 ∨ (bufLen : Int) < offset + data.length then none
  else some (fun i =>
    if offset.toNat ≤ i ∧ i < offset.toNat + data.length then
      data.getD (i - offset.toNat) 0
    else buf i)

/-- `TypedArray.prototype.subarray(from, to)` (clamping semantics), on a list:
`to` clamps to the length, negative values clamp to `0`. -/
def jsSubarray (data : List Nat) (from_ : Int) (to_ : Int) : List Nat :=
  (data.take to_.toNat).drop from_.toNat

/-- `RingBuffer.append(data)`.  Returns the resulting buffer state together
with `true` when the JS code would complete normally, `false` when one of the
two `buffer.set` calls throws a `RangeError` — in which case the returned state
is the partially-mutated state the JS object is left in (`start`/`length`
already advanced by the eviction step, with only the writes that succeeded). -/
def RingBuffer.append (rb : RingBuffer) (data : List Nat) : RingBuffer × Bool :=
  let dataLength : Int := data.length
  let bufLen : Nat := 2 * rb.maxBytes
  -- eviction: if the new data would exceed maxBytes, advance start
  let start1 : Int :=
    if (rb.maxBytes : Int) < rb.length + dataLength then
      jsMod (rb.start + (rb.length + dataLength - rb.maxBytes)) bufLen
    else rb.start
  let length1 : Int :=
    if (rb.maxBytes : Int) < rb.length + dataLength then
      rb.length - (rb.length + dataLength - rb.maxBytes)
    else rb.length
  let writeStart : Int := jsMod (start1 + length1) bufLen
  if writeStart + dataLength ≤ (bufLen : Int) then
    -- single write
    match typedArraySet rb.buffer bufLen data writeStart with
    | some buf' =>
        ({ rb with buffer := buf', start := start1, length := length1 + dataLength }, true)
    | none => ({ rb with start := start1, length := length1 }, false)
  else
    -- split write across the wrap boundary
    let firstPart : Int := (bufLen : Int) - writeStart
    match typedArraySet rb.buffer bufLen (jsSubarray data 0 firstPart) writeStart with
    | some buf' =>
        match typedArraySet buf' bufLen (jsSubarray data firstPart dataLength) 0 with
        | some buf'' =>
            ({ rb with buffer := buf'', start := start1, length := length1 + dataLength }, true)
        | none => ({ rb with buffer := buf', start := start1, length := length1 }, false)
    | none => ({ rb with start := start1, length := length1 }, false)

/-- `RingBuffer.getData()`.  `none` models the `RangeError` that
`new Uint8Array(this.length)` throws when `length` is negative. -/
def RingBuffer.getData (rb : RingBuffer) : Option (List Nat) :=
  if rb.length = 0 then some []
  else if rb.length < 0 then none
  else
    let len := rb.length.toNat
    let bufLen := 2 * rb.maxBytes
    let s := rb.start.toNat
    if rb.start + rb.length ≤ (bufLen : Int) then
      some ((List.range len).map fun i => rb.buffer (s + i))
    else
      let firstPart := bufLen - s
      some (((List.range firstPart).map fun i => rb.buffer (s + i)) ++
            ((List.range (len - firstPart)).map fun i => rb.buffer i))

/-- `RingBuffer.clear()`. -/
def RingBuffer.clear (rb : RingBuffer) : RingBuffer :=
  { rb with start := 0, length := 0 }

/-- Folding a sequence of appends, recording whether every append completed
without a `RangeError`. -/
def RingBuffer.appendAll (rb : RingBuffer) (chunks : List (List Nat)) :
    RingBuffer × Bool :=
  chunks.foldl (fun (acc : RingBuffer × Bool) d =>
    let (rb', ok) := acc.1.append d
    (rb', acc.2 && ok)) (rb, true)

/-! ## WAV assembly (`src/app/wav_utils.ts`) -/

/-- `DataView.setUint16(offset, v, littleEndian = true)` on a byte list. -/
def setUint16LE (l : List Nat) (off : Nat) (v : Nat) : List Nat :=
  let v := v % 2 ^ 16
  (l.set off (v % 256)).set (off + 1) (v / 256 % 256)

/-- `DataView.setUint32(offset, v, littleEndian = true)` on a byte list. -/
def setUint32LE (l : List Nat) (off : Nat) (v : Nat) : List Nat :=
  let v := v % 2 ^ 32
  ((((l.set off (v % 256)).set (off + 1) (v / 256 % 256)).set
      (off + 2) (v / 2 ^ 16 % 256)).set (off + 3) (v / 2 ^ 24 % 256))

/-- `DataView.setUint32(offset, v, false)` (big-endian) on a byte list. -/
def setUint32BE (l : List Nat) (off : Nat) (v : Nat) : List Nat :=
  let v := v % 2 ^ 32
  ((((l.set off (v / 2 ^ 24 % 256)).set (off + 1) (v / 2 ^ 16 % 256)).set
      (off + 2) (v / 256 % 256)).set (off + 3) (v % 256))

/-- Audio constants of `wav_utils.ts`. -/
def SAMPLE_RATE : Nat := 16000
def BIT_DEPTH : Nat := 16
def CHANNELS : Nat := 1
def BYTES_PER_SAMPLE : Nat := 2

/-- The pre-computed 44-byte `WAV_HEADER_TEMPLATE`, built exactly by the
initialization sequence of `wav_utils.ts` on a zeroed 44-byte `ArrayBuffer`. -/
def WAV_HEADER_TEMPLATE : List Nat :=
  let b0 := List.replicate 44 0
  let b1 := setUint32BE b0 0 0x52494646            -- "RIFF"
  let b2 := setUint32BE b1 8 0x57415645            -- "WAVE"
  let b3 := setUint32BE b2 12 0x666d7420           -- "fmt "
  let b4 := setUint32LE b3 16 16                   -- sub-chunk size
  let b5 := setUint16LE b4 20 1                    -- PCM format
  let b6 := setUint16LE b5 22 CHANNELS
  let b7 := setUint32LE b6 24 SAMPLE_RATE
  let b8 := setUint32LE b7 28 (SAMPLE_RATE * CHANNELS * BYTES_PER_SAMPLE)
  let b9 := setUint16LE b8 32 (CHANNELS * BYTES_PER_SAMPLE)
  let b10 := setUint16LE b9 34 BIT_DEPTH
  setUint32BE b10 36 0x64617461                    -- "data"

/-- `createOptimizedWavBlob(pcmDataChunks)`: copy the header template, patch
the two size fields, and concatenate the PCM segments after it.  The result is
the byte content of the emitted `audio/wav` blob. -/
def createOptimizedWavBlob (pcmDataChunks : List (List Nat)) : List Nat :=
  let pcmDataSize := (pcmDataChunks.map List.length).sum
  let header := setUint32LE (setUint32LE WAV_HEADER_TEMPLATE 4 (36 + pcmDataSize))
    40 pcmDataSize
  header ++ pcmDataChunks.flatten

/-! ## Base64 decoding (`optimizedBase64Decode`, `src/app/wav_utils.ts`)

`optimizedBase64Decode` calls the platform `atob` and copies the resulting
binary string into a `Uint8Array`.  `atob` implements the WHATWG
"forgiving-base64" decode: strip ASCII whitespace, allow up to two trailing
`=` when the length is a multiple of four, fail on a length `≡ 1 (mod 4)` or
on any character outside the base64 alphabet.  Failure throws, which the
caller catches.  We model the decoder as an `Option`-returning function. -/

/-- Value of one base64 alphabet character. -/
def b64Val (c : Char) : Option Nat :=
  if 'A' ≤ c ∧ c ≤ 'Z' then some (c.toNat - 65)
  else if 'a' ≤ c ∧ c ≤ 'z' then some (c.toNat - 71)
  else if '0' ≤ c ∧ c ≤ '9' then some (c.toNat + 4)
  else if c = '+' then some 62
  else if c = '/' then some 63
  else none

/-- Decode a list of base64 characters (whitespace and padding already
removed) into bytes, four characters at a time. -/
def b64DecodeChars : List Char → Option (List Nat)
  | [] => some []
  | [c1, c2] => do
      let v1 ← b64Val c1
      let v2 ← b64Val c2
      pure [(v1 * 4 + v2 / 16) % 256]
  | [c1, c2, c3] => do
      let v1 ← b64Val c1
      let v2 ← b64Val c2
      let v3 ← b64Val c3
      pure [(v1 * 4 + v2 / 16) % 256, (v2 % 16 * 16 + v3 / 4) % 256]
  | c1 :: c2 :: c3 :: c4 :: rest => do
      let v1 ← b64Val c1
      let v2 ← b64Val c2
      let v3 ← b64Val c3
      let v4 ← b64Val c4
      let tail ← b64DecodeChars rest
      pure ((v1 * 4 + v2 / 16) % 256 :: (v2 % 16 * 16 + v3 / 4) % 256 ::
        (v3 % 4 * 64 + v4) % 256 :: tail)
  | _ => none

/-- `atob` (forgiving-base64 decode) followed by the byte-for-byte copy of
`optimizedBase64Decode`; `none` models the `DOMException` on invalid input. -/
def optimizedBase64Decode (s : String) : Option (List Nat) :=
  let chars := s.toList.filter fun c =>
    ¬ (c = ' ' ∨ c = '\t' ∨ c = '\n' ∨ c = '\x0d' ∨ c = '\x0c')
  let chars :=
    if chars.length % 4 = 0 then
      if chars.reverse.take 2 = ['=', '='] then chars.dropLast.dropLast
      else if chars.reverse.take 1 = ['='] then chars.dropLast
      else chars
    else chars
  if chars.length % 4 = 1 ∨ chars.contains '=' then none
  else b64DecodeChars chars

/-! ## Ticket storage (`src/store/kv/index.ts`)

`TicketStorage` uses Cloudflare KV in production and an in-process `Map` in
development.  We model the deterministic in-process adapter (constructor
argument `kv` absent): the store is an association list keyed by the ticket
string; `get` auto-deletes entries whose `expires` is in the past. -/

structure TicketData where
  userId : String
  expires : Int
  used : Bool
deriving DecidableEq, Repr

/-- The in-process `Map<string, TicketData>` backing store. -/
abbrev TicketStore := List (String × TicketData)

/-- `Map.prototype.get`. -/
def TicketStore.get (s : TicketStore) (k : String) : Option TicketData :=
  (List.find? (fun p => p.1 = k) s).map Prod.snd

/-- `Map.prototype.set` (insert or overwrite). -/
def TicketStore.set (s : TicketStore) (k : String) (d : TicketData) : TicketStore :=
  if (List.find? (fun p => p.1 = k) s).isSome then
    List.map (fun p => if p.1 = k then (k, d) else p) s
  else s ++ [(k, d)]

/-- `Map.prototype.delete`. -/
def TicketStore.del (s : TicketStore) (k : String) : TicketStore :=
  List.filter (fun p => ¬ p.1 = k) s

/-- `TicketStorage.get` in memory mode: manual expiration check — an entry
with `expires < Date.now()` is deleted and reported absent. -/
def ticketStorageGet (now : Int) (s : TicketStore) (ticket : String) :
    Option TicketData × TicketStore :=
  match s.get ticket with
  | some d => if d.expires < now then (none, s.del ticket) else (some d, s)
  | none => (none, s)

/-- `TicketStorage.set` in memory mode (the KV production path additionally
passes `expirationTtl: 300` to `kv.put`; see `websocketTicketHandle`). -/
def ticketStorageSet (s : TicketStore) (ticket : String) (d : TicketData) :
    TicketStore :=
  s.set ticket d

/-- `validateAndConsumeTicket(ticket)`: returns the `userId` of a valid
ticket, `none` otherwise, threading the store state.  Mirrors the source:
absent → `none`; `expires < now` → delete and `none`; `used` → `none`
(without deleting); otherwise delete ("mark as used by deleting") and return
the user. -/
def validateAndConsumeTicket (now : Int) (s : TicketStore) (ticket : String) :
    Option String × TicketStore :=
  match ticketStorageGet now s ticket with
  | (none, s1) => (none, s1)
  | (some d, s1) =>
    if d.expires < now then (none, s1.del ticket)
    else if d.used then (none, s1)
    else (some d.userId, s1.del ticket)

/-! ## Ticket issuer (`WebSocketTicket.handle`, `src/endpoints/websocket-ticket.ts`)

We model the endpoint from the point where the Clerk JWT has been verified and
yielded a subject (`payload.sub`) and a fresh random ticket string has been
generated; both enter the model as parameters.  The handler stores
`{userId, expires: now + 60*60*1000, used: false}` — in production through
`kv.put(..., {expirationTtl: 300})` — and responds
`{ticket, expires_in: 3600}`. -/

structure TicketIssueResult where
  /-- The record stored under `ticket:{id}`. -/
  stored : TicketData
  /-- The `expirationTtl` value (seconds) passed to `kv.put` in production. -/
  kvTtlSeconds : Nat
  /-- The `ticket` field of the JSON response. -/
  responseTicket : String
  /-- The `expires_in` field of the JSON response. -/
  responseExpiresIn : Nat
deriving DecidableEq, Repr

/-- `WebSocketTicket.handle`, after successful token verification. -/
def websocketTicketHandle (now : Int) (sub : String) (ticket : String) :
    TicketIssueResult :=
  let expiresAt : Int := now + 60 * 60 * 1000
  { stored := { userId := sub, expires := expiresAt, used := false }
    kvTtlSeconds := 300
    responseTicket := ticket
    responseExpiresIn := 3600 }

/-! ## Connection handler (`handleWebSocket`, `src/endpoints/websocket.ts`)

The handler checks `Upgrade: websocket`, then validates the `Origin` header —
when one is present — against `CLERK_AUTHORIZED_PARTIES` (comma-separated,
defaulting to `localhost:3000` when the variable is unset or empty, by the
JS `||` falsy test), and otherwise performs the upgrade. -/

/-- `String.prototype.split(sep)` for a one-character separator, JS
semantics: split at every occurrence; an empty input yields `[""]`. -/
def jsSplitChar (sep : Char) (s : String) : List String :=
  let rec go : List Char → List Char → List (List Char)
    | [], acc => [acc.reverse]
    | c :: rest, acc =>
      if c = sep then acc.reverse :: go rest [] else go rest (c :: acc)
  (go s.data []).map String.mk

/-- `String.prototype.endsWith(suffix)`. -/
def jsEndsWith (s suffix : String) : Bool :=
  List.isSuffixOf suffix.data s.data

/-- `new URL(origin).hostname` for a well-formed `scheme://host[:port][/path]`
origin; `none` models the `TypeError` thrown on an unparsable URL.  The WHATWG
parser lowercases the host. -/
def urlHostname (origin : String) : Option String :=
  let rec afterSchemeSep : List Char → Option (List Char)
    | ':' :: '/' :: '/' :: rest => some rest
    | _ :: rest => afterSchemeSep rest
    | [] => none
  match afterSchemeSep origin.data with
  | none => none
  | some rest =>
    let host := rest.takeWhile fun c => ¬ (c = ':' ∨ c = '/')
    if host = [] then none else some (String.mk (host.map Char.toLower))

/-- One allowlist entry with its optional `:port` suffix stripped
(`allowed.includes(c) ? allowed.split(c)[0] : allowed` for the colon). -/
def stripPort (allowed : String) : String :=
  (jsSplitChar ':' allowed).headD ""

/-- `env.CLERK_AUTHORIZED_PARTIES` with the `localhost:3000` fallback via the
JS `||` operator, which takes the
default when the variable is unset **or** an empty string (both falsy). -/
def effectiveParties (clerkAuthorizedParties : Option String) : String :=
  match clerkAuthorizedParties with
  | some s => if s = "" then "localhost:3000" else s
  | none => "localhost:3000"

/-- The possible outcomes of the upgrade request. -/
inductive WSResponse where
  /-- `400 "Expected websocket"`. -/
  | expectedWebsocket400 : WSResponse
  /-- `403 "Forbidden: Invalid origin"`. -/
  | forbidden403 : WSResponse
  /-- the `TypeError` escaping from `new URL(origin)`. -/
  | urlTypeError : WSResponse
  /-- `101` with the client socket; `handleSecureAudioSession` takes over. -/
  | upgrade101 : WSResponse
deriving DecidableEq, Repr

/-- `handleWebSocket`, as a function of the `Upgrade` header, the `Origin`
header and the `CLERK_AUTHORIZED_PARTIES` configuration value. -/
def handleWebSocket (clerkAuthorizedParties : Option String)
    (upgradeHeader : Option String) (origin : Option String) : WSResponse :=
  if upgradeHeader ≠ some "websocket" then .expectedWebsocket400
  else
    let allowedOrigins := jsSplitChar ',' (effectiveParties clerkAuthorizedParties)
    match origin with
    | none => .upgrade101
    | some o =>
      match urlHostname o with
      | none => .urlTypeError
      | some originHost =>
        let isAllowed := allowedOrigins.any fun allowed =>
          originHost == stripPort allowed ||
            jsEndsWith originHost ("." ++ stripPort allowed)
        if !isAllowed then .forbidden403 else .upgrade101

/-- The origin-acceptance predicate as the (amended) specification words it:
the hostname equals, or is a dot-separated subdomain of, some entry of the
configured comma-separated allowlist with ports stripped, the list defaulting
to `localhost:3000` when the configuration is unset or empty. -/
def originAllowedSpec (clerkAuthorizedParties : Option String)
    (originHost : String) : Prop :=
  ∃ allowed ∈ jsSplitChar ',' (effectiveParties clerkAuthorizedParties),
    originHost = stripPort allowed ∨
      jsEndsWith originHost ("." ++ stripPort allowed) = true

/-! ## R2 file storage (`R2FileStorage`, `src/store/r2/file-storage.ts`)

`uploadFile` derives the object key from a freshly generated random
`fileId` — not from `options.filename`, which is only recorded in the custom
metadata.  The random `fileId` (`Date.now().toString(36) + '-' + random`)
enters the model as a parameter, as does the ISO timestamp. -/

/-- `sanitizeFilename`: `filename.replace(/[^a-zA-Z0-9.-]/g, '_')`. -/
def sanitizeFilename (filename : String) : String :=
  String.mk <| filename.data.map fun c =>
    if ('a' ≤ c ∧ c ≤ 'z') ∨ ('A' ≤ c ∧ c ≤ 'Z') ∨ ('0' ≤ c ∧ c ≤ '9')
        ∨ c = '.' ∨ c = '-' then c
    else '_'

/-- `getFileExtension`: the substring from the final dot (inclusive), or `""`
when there is no dot. -/
def getFileExtension (filename : String) : String :=
  if filename.toList.contains '.' then
    "." ++ String.mk (filename.toList.reverse.takeWhile (fun c => ¬ c = '.')).reverse
  else ""

/-- `generateFilePath(fileId, filename, folder)`. -/
def generateFilePath (fileId : String) (filename : String)
    (folder : Option String) : String :=
  let sanitized := sanitizeFilename filename
  let extension := getFileExtension sanitized
  let basePath := match folder with
    | some f => f ++ "/" ++ fileId
    | none => fileId
  basePath ++ extension

/-- The observable effect of one `R2FileStorage.uploadFile` call: the bucket
key written by `r2.put`, the HTTP content type, and the custom metadata. -/
structure UploadRecord where
  key : String
  contentType : String
  customMetadata : List (String × String)
  fileData : List Nat
deriving DecidableEq, Repr

/-- `R2FileStorage.uploadFile(fileData, options)` (successful path). -/
def r2UploadFile (fileId : String) (nowIso : String) (fileData : List Nat)
    (filename : String) (contentType : String) (userId : String)
    (folder : Option String) (metadata : List (String × String)) :
    UploadRecord :=
  { key := generateFilePath fileId filename folder
    contentType := contentType
    customMetadata :=
      [("uploaded-by", userId), ("uploaded-at", nowIso),
       ("original-filename", filename)] ++ metadata
    fileData := fileData }

/-! ## Archiver (`OptimizedAudioStorage`, `src/app/audio-storage.ts`) -/

/-- The `AudioChunk` fed to the archiver: the session field `globalTimeMs` as
timestamp plus the decoded PCM bytes and the VAD annotations. -/
structure AudioChunkRec where
  timestamp : Nat
  data : List Nat
  vadState : Option String
  vadOffset : Option Int
deriving DecidableEq, Repr

/-- `AudioStorageConfig`. -/
structure AudioStorageConfig where
  windowSizeMs : Nat
  uploadIntervalMs : Nat
  maxMemoryMB : Nat
  enableDebug : Bool
  storeOriginalAudio : Bool
  storeVadSegments : Bool
deriving DecidableEq, Repr

/-- The configuration `handleSecureAudioSession` passes to
`createAudioSession`. -/
def secureSessionAudioConfig (debugMode : Bool) : AudioStorageConfig :=
  { windowSizeMs := 2 * 60 * 1000
    uploadIntervalMs := 60 * 1000
    maxMemoryMB := 10
    enableDebug := debugMode
    storeOriginalAudio := true
    storeVadSegments := false }

/-- `StorageStats`.  `memoryBytes` carries the byte total from which the JS
code derives `memoryUsageMB = totalBytes / (1024*1024)`; division by the
power of two is exact in IEEE doubles, so `memoryUsageMB > maxMemoryMB` is
exactly `memoryBytes > maxMemoryMB * 1048576`. -/
structure StorageStats where
  totalChunks : Nat
  memoryBytes : Nat
  uploadsCompleted : Nat
  uploadsFailed : Nat
  lastUploadTime : Option Nat
deriving DecidableEq, Repr

/-- The mutable state of one `OptimizedAudioStorage` instance. -/
structure ArchiverState where
  sessionId : String
  userId : String
  config : AudioStorageConfig
  slidingWindow : List AudioChunkRec
  stats : StorageStats
  isActive : Bool
  isUploading : Bool
deriving DecidableEq, Repr

/-- `createAudioSession` / the `OptimizedAudioStorage` constructor. -/
def createAudioSession (sessionId userId : String)
    (config : AudioStorageConfig) : ArchiverState :=
  { sessionId := sessionId, userId := userId, config := config
    slidingWindow := []
    stats := { totalChunks := 0, memoryBytes := 0, uploadsCompleted := 0,
               uploadsFailed := 0, lastUploadTime := none }
    isActive := true, isUploading := false }

/-- Total payload bytes of the sliding window (`updateMemoryStats`). -/
def windowBytes (w : List AudioChunkRec) : Nat :=
  (w.map fun c => c.data.length).sum

/-- `maintainWindowSize`: drop every chunk with
`timestamp ≤ now − windowSizeMs` (the filter keeps `timestamp > cutoffTime`;
over integers that is `now < timestamp + windowSizeMs`). -/
def maintainWindowSize (windowSizeMs : Nat) (now : Nat)
    (w : List AudioChunkRec) : List AudioChunkRec :=
  w.filter fun c => now < c.timestamp + windowSizeMs

/-- `Array.prototype.slice(-keepCount)` — with the JS quirk that
`slice(-0)` is `slice(0)` and keeps the whole array. -/
def jsSliceNeg (l : List AudioChunkRec) (keepCount : Nat) : List AudioChunkRec :=
  if keepCount = 0 then l else l.drop (l.length - keepCount)

/-- `scheduledUpload` (successful-PUT path).  Produces the `UploadRecord` of
the `r2Storage.uploadFile` call when the `!isActive || isUploading ||
window.length === 0` guard passes; `fileId`/`nowIso` stand for the fresh
randomness and clock reads of the call.  `isUploading` is `true` only during the
call and is reset in the `finally` block, so its net effect is `false`. -/
def scheduledUpload (now : Nat) (fileId nowIso : String)
    (st : ArchiverState) : ArchiverState × Option UploadRecord :=
  if ¬ st.isActive ∨ st.isUploading ∨ st.slidingWindow.length = 0 then (st, none)
  else
    let dataToUpload := st.slidingWindow
    let chunkId := now / st.config.uploadIntervalMs
    let audioType := if st.config.storeOriginalAudio then "original" else "vad"
    let filename := "session_" ++ st.sessionId ++ "_" ++ audioType ++ "_"
      ++ toString chunkId ++ ".wav"
    let wavBuffer := createOptimizedWavBlob (dataToUpload.map fun c => c.data)
    let rec_ := r2UploadFile fileId nowIso wavBuffer filename "audio/wav"
      st.userId (some "audio-sessions")
      [("sessionId", st.sessionId), ("audioType", audioType),
       ("chunkId", toString chunkId),
       ("chunkCount", toString dataToUpload.length),
       ("startTimestamp", toString ((dataToUpload.head?.map fun c => c.timestamp).getD 0)),
       ("endTimestamp", toString ((dataToUpload.getLast?.map fun c => c.timestamp).getD 0)),
       ("duration", toString (dataToUpload.length * 128 / 1000) ++ "s"),
       ("isOriginalAudio", if st.config.storeOriginalAudio then "true" else "false"),
       ("uploadedAt", nowIso)]
    ({ st with
        stats := { st.stats with
          uploadsCompleted := st.stats.uploadsCompleted + 1
          lastUploadTime := some now } },
     some rec_)

/-- `processAudioChunk(chunk)`: append to the sliding window (when
`storeOriginalAudio`), evict expired chunks, recompute the memory statistic,
and — over the `maxMemoryMB` limit — run `emergencyUpload`, which uploads and
then retains only the last `Math.floor(length * 0.5)` entries via
`slice(-keepCount)`. -/
def processAudioChunk (now : Nat) (fileId nowIso : String)
    (st : ArchiverState) (chunk : AudioChunkRec) :
    ArchiverState × Option UploadRecord :=
  if ¬ st.isActive then (st, none)
  else
    let st :=
      if st.config.storeOriginalAudio then
        { st with slidingWindow := st.slidingWindow ++ [chunk]
                  stats := { st.stats with totalChunks := st.stats.totalChunks + 1 } }
      else st
    let st := { st with
      slidingWindow := maintainWindowSize st.config.windowSizeMs now st.slidingWindow }
    let memBytes := windowBytes st.slidingWindow
    let st := { st with stats := { st.stats with memoryBytes := memBytes } }
    if st.config.maxMemoryMB * 1048576 < memBytes then
      -- emergencyUpload: bail out if a concurrent upload is running
      if st.isUploading then (st, none)
      else
        let (st', rec?) := scheduledUpload now fileId nowIso st
        let keepCount := st'.slidingWindow.length / 2
        ({ st' with slidingWindow := jsSliceNeg st'.slidingWindow keepCount }, rec?)
    else (st, none)

/-! ## Session state machine (`src/app/audio-utils.ts`)

`handleSecureAudioSession` keeps the per-connection state in local `let`
variables; for each inbound message it builds a fresh context object from
them and calls `handleAudioMessage(parsedMessage, websocket, context)`.
JavaScript copies the *number and boolean* fields into that object literal by
value, while the array/object fields (`speechAudioCache`,
`previousChunkBuffer`, `audioStorage`) are shared references.
`handleAudioMessage` mutates the fields of the context object; the listener
never copies them back.

For `speechAudioCache` the handler both pushes onto the shared array
(`context.speechAudioCache.push(...)`, visible to the outer variable while the
reference is still shared) and *reassigns* the field
(`context.speechAudioCache = []`, after which the outer variable no longer
sees the array held by the context).  `CacheState` models this aliasing. -/

/-- `CHUNK_DURATION_MS` / `BYTES_PER_MS` from `audio-utils.ts`. -/
def CHUNK_DURATION_MS : Nat := 128
def BYTES_PER_MS : Nat := 32

/-- The recognized `vad_state` values. -/
inductive VadState where
  | start | vadEnd | cacheAsrTrigger | cacheAsrDrop
deriving DecidableEq, Repr

/-- The wire string of a `vad_state` value (stored into the archiver chunk). -/
def vadStateString : Option VadState → Option String
  | none => none
  | some .start => some "start"
  | some .vadEnd => some "end"
  | some .cacheAsrTrigger => some "cache_asr_trigger"
  | some .cacheAsrDrop => some "cache_asr_drop"

/-- Parsed client messages of the streaming phase. -/
inductive ClientMessage where
  | audioStreamStart
  | audioChunk (data : Option String) (vadState : Option VadState)
      (vadOffsetMs : Option Int)
  | audioStreamEnd
  | unknown (ty : String)
deriving DecidableEq, Repr

/-- Observable effects of processing one message: frames sent on the socket
plus the fire-and-forget ASR and object-store calls. -/
inductive ServerEffect where
  | streamStartAck (userId : String)
  | streamEndAck (receivedChunks : Nat)
  | vadCacheStart
  | vadCacheEnd
  | asrSubmit (segments : List (List Nat)) (speechStartTimeMs : Int)
      (speechEndTimeMs : Int) (isPrefetch : Bool) (useFireworks : Bool)
  | transcriptionErrorNoData
  | unknownTypeError (ty : String)
  | parseError
  | r2Upload (rec_ : UploadRecord)
deriving DecidableEq, Repr

/-- `context.speechAudioCache` together with the outer `speechAudioCache`
variable of the listener and the flag telling whether they still alias the
same JS array. -/
structure CacheState where
  cache : List (List Nat)
  outer : List (List Nat)
  aliased : Bool
deriving DecidableEq, Repr

/-- Context construction: field and variable share one array. -/
def CacheState.init (v : List (List Nat)) : CacheState :=
  { cache := v, outer := v, aliased := true }

/-- `context.speechAudioCache.push(seg)`: mutates the shared array, so the
outer variable sees it while still aliased. -/
def CacheState.push (cs : CacheState) (seg : List Nat) : CacheState :=
  { cache := cs.cache ++ [seg]
    outer := if cs.aliased then cs.cache ++ [seg] else cs.outer
    aliased := cs.aliased }

/-- `context.speechAudioCache = v`: rebinds the field only. -/
def CacheState.assign (cs : CacheState) (v : List (List Nat)) : CacheState :=
  { cache := v, outer := cs.outer, aliased := false }

/-- The context object built by the listener for `handleAudioMessage`. -/
structure AudioCtx where
  audioChunkCounter : Nat
  globalTimeMs : Nat
  isCaching : Bool
  cache : CacheState
  ring : RingBuffer
  speechStartTimeMs : Int
  userId : String
  audioStorage : Option ArchiverState

/-- Environment flags read by the session code. -/
structure AudioEnv where
  useFireworks : Bool
  debugMode : Bool
deriving DecidableEq, Repr

/-- Step 2 of the `audio_chunk` case: decode the base64 payload when present
and non-empty; a thrown decode error is caught and leaves the chunk null. -/
def audioChunkDecode (data : Option String) : Option (List Nat) :=
  match data with
  | some s => if 0 < s.length then optimizedBase64Decode s else none
  | none => none

/-- The fire-and-forget original-audio archival of an `audio_chunk` (in the
source this sits inside the `data && data.length > 0` block, but it is
guarded by `currentChunk && context.audioStorage`, which already implies
that). -/
def audioChunkStorageStep (wallNow : Nat) (fileId nowIso : String)
    (currentChunk : Option (List Nat)) (vadState : Option VadState)
    (vadOffsetMs : Option Int) (ctx : AudioCtx) :
    AudioCtx × List ServerEffect :=
  match currentChunk, ctx.audioStorage with
  | some bytes, some ast =>
      let (ast', rec?) := processAudioChunk wallNow fileId nowIso ast
        { timestamp := ctx.globalTimeMs, data := bytes,
          vadState := vadStateString vadState, vadOffset := vadOffsetMs }
      ({ ctx with audioStorage := some ast' },
       match rec? with | some r => [ServerEffect.r2Upload r] | none => [])
  | _, _ => (ctx, [])

/-- The `vad_state === "start"` block: begin caching, record the speech start
instant, and recover look-behind pre-roll from the ring buffer on a negative
offset.  The `Bool` is `false` when `getData` throws. -/
def audioChunkVadStartStep (vadState : Option VadState) (vadOffsetMs : Option Int)
    (ctx : AudioCtx) : AudioCtx × List ServerEffect × Bool :=
  if vadState = some VadState.start then
    let ctx := { ctx with
      isCaching := true
      cache := ctx.cache.assign []
      speechStartTimeMs := (ctx.globalTimeMs : Int) + (vadOffsetMs.getD 0) }
    -- `if (vad_offset_ms && vad_offset_ms < 0)`
    match vadOffsetMs with
    | some v =>
      if v < 0 then
        match ctx.ring.getData with
        | none => (ctx, [], false)
        | some bufferData =>
          if 0 < bufferData.length then
            let offsetBytes := v.natAbs * BYTES_PER_MS
            let startByte := bufferData.length - offsetBytes
            let prefixChunk := bufferData.drop startByte
            ({ ctx with cache := ctx.cache.push prefixChunk },
             [ServerEffect.vadCacheStart], true)
          else (ctx, [ServerEffect.vadCacheStart], true)
      else (ctx, [ServerEffect.vadCacheStart], true)
    | none => (ctx, [ServerEffect.vadCacheStart], true)
  else (ctx, [], true)

/-- The mid-utterance caching of the chunk (between VAD start and end). -/
def audioChunkCacheStep (currentChunk : Option (List Nat))
    (vadState : Option VadState) (ctx : AudioCtx) : AudioCtx :=
  match currentChunk with
  | some bytes =>
      if ctx.isCaching ∧ ¬ vadState = some VadState.vadEnd then
        { ctx with cache := ctx.cache.push bytes }
      else ctx
  | none => ctx

/-- Feeding the 256 ms pre-roll ring buffer.  The `Bool` is `false` when
`append` throws a `RangeError`. -/
def audioChunkRingStep (currentChunk : Option (List Nat)) (ctx : AudioCtx) :
    AudioCtx × Bool :=
  match currentChunk with
  | some bytes =>
      let (rb', ok) := ctx.ring.append bytes
      ({ ctx with ring := rb' }, ok)
  | none => (ctx, true)

/-- The `cache_asr_trigger` block (prefetch; does not clear the cache). -/
def audioChunkTriggerStep (env : AudioEnv) (currentChunk : Option (List Nat))
    (vadState : Option VadState) (vadOffsetMs : Option Int) (ctx : AudioCtx) :
    List ServerEffect :=
  if vadState = some VadState.cacheAsrTrigger ∧ ctx.isCaching then
    let speechEndTimeMs := (ctx.globalTimeMs : Int) + (vadOffsetMs.getD 0)
    let cached := ctx.cache.cache
    let cached :=
      match currentChunk, vadOffsetMs with
      | some bytes, some v =>
          if 0 < v then
            cached ++ [bytes.take (min bytes.length (v.toNat * BYTES_PER_MS))]
          else cached ++ [bytes]
      | some bytes, none => cached ++ [bytes]
      | none, _ => cached
    if 0 < cached.length then
      [ServerEffect.asrSubmit cached ctx.speechStartTimeMs speechEndTimeMs true
        env.useFireworks]
    else []
  else []

/-- The `vad_state === "end"` block: close the utterance, emit
`vad_cache_end`, and submit the cached segments to ASR (or an error frame
when the cache is empty). -/
def audioChunkEndStep (env : AudioEnv) (currentChunk : Option (List Nat))
    (vadState : Option VadState) (vadOffsetMs : Option Int) (ctx : AudioCtx) :
    AudioCtx × List ServerEffect :=
  if vadState = some VadState.vadEnd then
    if ctx.isCaching then
      let speechEndTimeMs := (ctx.globalTimeMs : Int) + (vadOffsetMs.getD 0)
      let ctx :=
        match currentChunk, vadOffsetMs with
        | some bytes, some v =>
            if 0 < v then
              let endChunk := bytes.take (min bytes.length (v.toNat * BYTES_PER_MS))
              { ctx with cache := ctx.cache.push endChunk }
            else { ctx with cache := ctx.cache.push bytes }
        | some bytes, none => { ctx with cache := ctx.cache.push bytes }
        | none, _ => ctx
      let ctx := { ctx with isCaching := false }
      let cachedData := ctx.cache.cache
      let ctx := { ctx with cache := ctx.cache.assign [] }
      (ctx, [ServerEffect.vadCacheEnd] ++
        (if cachedData.length = 0 then [ServerEffect.transcriptionErrorNoData]
         else [ServerEffect.asrSubmit cachedData ctx.speechStartTimeMs
           speechEndTimeMs false env.useFireworks]))
    else (ctx, [])
  else (ctx, [])

/-- `handleAudioMessage(parsedMessage, websocket, context)`.

Returns the mutated context, the emitted effects in program order, and `true`
when the handler ran to completion (`false` models an exception escaping the
handler — a `RangeError` out of `previousChunkBuffer.append`/`getData` — in
which case the remaining statements of the handler are skipped).
`wallNow`/`fileId`/`nowIso` stand for the wall clock and randomness consumed
by the archiver call.  The `audio_chunk` case is the sequential composition
of the step functions above, in source order. -/
def handleAudioMessage (env : AudioEnv) (wallNow : Nat) (fileId nowIso : String)
    (ctx : AudioCtx) (msg : ClientMessage) :
    AudioCtx × List ServerEffect × Bool :=
  match msg with
  | .audioStreamStart =>
      ({ ctx with audioChunkCounter := 0, globalTimeMs := 0, isCaching := false,
                  cache := ctx.cache.assign [], ring := ctx.ring.clear,
                  speechStartTimeMs := 0 },
       [ServerEffect.streamStartAck ctx.userId], true)
  | .audioStreamEnd => (ctx, [ServerEffect.streamEndAck ctx.audioChunkCounter], true)
  | .unknown ty => (ctx, [ServerEffect.unknownTypeError ty], true)
  | .audioChunk data vadState vadOffsetMs =>
    let ctx := { ctx with audioChunkCounter := ctx.audioChunkCounter + 1 }
    let currentChunk := audioChunkDecode data
    let (ctx, storageEffects) :=
      audioChunkStorageStep wallNow fileId nowIso currentChunk vadState
        vadOffsetMs ctx
    match audioChunkVadStartStep vadState vadOffsetMs ctx with
    | (ctx, startEffects, false) => (ctx, storageEffects ++ startEffects, false)
    | (ctx, startEffects, true) =>
      let ctx := audioChunkCacheStep currentChunk vadState ctx
      match audioChunkRingStep currentChunk ctx with
      | (ctx, false) => (ctx, storageEffects ++ startEffects, false)
      | (ctx, true) =>
        let ctx := { ctx with globalTimeMs := ctx.globalTimeMs + CHUNK_DURATION_MS }
        let triggerEffects :=
          audioChunkTriggerStep env currentChunk vadState vadOffsetMs ctx
        let (ctx, endEffects) :=
          audioChunkEndStep env currentChunk vadState vadOffsetMs ctx
        (ctx, storageEffects ++ startEffects ++ triggerEffects ++ endEffects, true)

/-- The outer `let` variables of `handleSecureAudioSession` (streaming
phase, after successful authentication). -/
structure SessionVars where
  audioChunkCounter : Nat
  globalTimeMs : Nat
  isCaching : Bool
  speechAudioCache : List (List Nat)
  previousChunkBuffer : RingBuffer
  speechStartTimeMs : Int
  userId : String
  audioStorage : Option ArchiverState

/-- The variables as initialized on connection entry / after authentication
(`new RingBuffer(256 * BYTES_PER_MS)`). -/
def initialSessionVars (userId : String) (storage : Option ArchiverState) :
    SessionVars :=
  { audioChunkCounter := 0, globalTimeMs := 0, isCaching := false,
    speechAudioCache := [], previousChunkBuffer := RingBuffer.ofCapacity (256 * BYTES_PER_MS),
    speechStartTimeMs := 0, userId := userId, audioStorage := storage }

/-- One turn of the authenticated message listener: build the context object
from the session variables (numbers and booleans by value, references
shared), run `handleAudioMessage`, and keep only the mutations that went
through shared references.  An exception out of the handler is caught by the
`try`/`catch` of the listener, which sends the JSON-parse error frame. -/
def secureSessionStep (env : AudioEnv) (wallNow : Nat) (fileId nowIso : String)
    (st : SessionVars) (msg : ClientMessage) : SessionVars × List ServerEffect :=
  let ctx : AudioCtx :=
    { audioChunkCounter := st.audioChunkCounter, globalTimeMs := st.globalTimeMs,
      isCaching := st.isCaching, cache := CacheState.init st.speechAudioCache,
      ring := st.previousChunkBuffer, speechStartTimeMs := st.speechStartTimeMs,
      userId := st.userId, audioStorage := st.audioStorage }
  let (ctx', effects, ok) := handleAudioMessage env wallNow fileId nowIso ctx msg
  let st' := { st with speechAudioCache := ctx'.cache.outer,
                       previousChunkBuffer := ctx'.ring,
                       audioStorage := ctx'.audioStorage }
  if ok then (st', effects) else (st', effects ++ [ServerEffect.parseError])

/-- Fold `secureSessionStep` over a message sequence, accumulating effects.
The wall clock and randomness parameters are held fixed; the runs examined by
the theorems below never consult them. -/
def secureSessionRun (env : AudioEnv) (wallNow : Nat) (fileId nowIso : String)
    (st : SessionVars) (msgs : List ClientMessage) :
    SessionVars × List ServerEffect :=
  msgs.foldl (fun acc msg =>
    let (st', effs) := secureSessionStep env wallNow fileId nowIso acc.1 msg
    (st', acc.2 ++ effs)) (st, [])

/-! ## Auxiliary definitions used by the statements -/

/-- The most recent `min (l.length) n` elements of `l`, in order. -/
def takeLastN (l : List Nat) (n : Nat) : List Nat :=
  l.drop (l.length - n)

/-- Little-endian bytes of a 16-bit value (for stating WAV header facts). -/
def le16 (v : Nat) : List Nat := [v % 256, v / 256 % 256]

/-- Little-endian bytes of a 32-bit value (for stating WAV header facts). -/
def le32 (v : Nat) : List Nat :=
  [v % 256, v / 256 % 256, v / 2 ^ 16 % 256, v / 2 ^ 24 % 256]

/-! # Theorems -/

/-! ## C4 — ticket issuance TTLs -/

/-- C4, counterexample.  The claim says the stored record expires 300 s after
creation and the response advertises `expires_in: 300`; the code stores
`now + 3600000` ms and responds `expires_in: 3600` (only the KV TTL is
300 s).  Evaluated at `now = 0`. -/
theorem c4_counterexample :
    ¬ ((websocketTicketHandle 0 "user_42" "t1").stored.expires = 0 + 300 * 1000 ∧
       (websocketTicketHandle 0 "user_42" "t1").responseExpiresIn = 300) := by
  decide

/-- C4, amended.  A successful `POST /api/ws/ticket` stores the ticket record
with `expires_at` equal to 3600 seconds (60 minutes) after creation, puts it
with a server-side KV TTL of 300 s, and responds `{ticket, expires_in: 3600}`. -/
theorem c4_ticket_issue (now : Int) (sub ticket : String) :
    (websocketTicketHandle now sub ticket).stored =
      { userId := sub, expires := now + 3600 * 1000, used := false } ∧
    (websocketTicketHandle now sub ticket).kvTtlSeconds = 300 ∧
    (websocketTicketHandle now sub ticket).responseTicket = ticket ∧
    (websocketTicketHandle now sub ticket).responseExpiresIn = 3600 := by
  refine ⟨?_, rfl, rfl, rfl⟩
  simp only [websocketTicketHandle]
  norm_num

/-! ## C2 — ticket consumption is one-shot -/

/-- After deleting a key, looking it up yields nothing. -/
theorem TicketStore.get_del (s : TicketStore) (k : String) :
    (s.del k).get k = none := by
  induction s with
  | nil => rfl
  | cons p rest ih =>
    by_cases h : p.1 = k
    · simp [TicketStore.del, TicketStore.get, h, ih]
    · simp [TicketStore.del, TicketStore.get, List.find?, h, ih]

/-- C2, counterexample.  Two departures from the claim, at concrete inputs:
a `used` ticket is rejected but its key is **not** deleted, and at
`now = expires_at` exactly the consume **succeeds** (the code checks
`expires < now`, not `now ≥ expires`). -/
theorem c2_counterexample :
    (validateAndConsumeTicket 0
        [("t1", { userId := "u", expires := 100, used := true })] "t1" =
      (none, [("t1", { userId := "u", expires := 100, used := true })])) ∧
    (validateAndConsumeTicket 100
        [("t1", { userId := "u", expires := 100, used := false })] "t1").1 =
      some "u" := by
  decide

/-- C2, amended.  `Consume(id)` returns `⊥` when the ticket is absent; when
`now > expires_at` it deletes the stored key and returns `⊥`; when
`used = true` it returns `⊥` but leaves the key stored; otherwise it deletes
the key and returns the subject — so at most one consume call succeeds and
every later consume of the same id returns `⊥`. -/
theorem c2_consume_one_shot (now : Int) (s : TicketStore) (id : String) :
    (s.get id = none → validateAndConsumeTicket now s id = (none, s)) ∧
    (∀ d, s.get id = some d → d.expires < now →
      validateAndConsumeTicket now s id = (none, s.del id)) ∧
    (∀ d, s.get id = some d → ¬ d.expires < now → d.used = true →
      validateAndConsumeTicket now s id = (none, s)) ∧
    (∀ d, s.get id = some d → ¬ d.expires < now → ¬ d.used = true →
      validateAndConsumeTicket now s id = (some d.userId, s.del id)) ∧
    (∀ u s', validateAndConsumeTicket now s id = (some u, s') →
      ∀ now', (validateAndConsumeTicket now' s' id).1 = none) := by
  refine ⟨?_, ?_, ?_, ?_, ?_⟩
  · intro h
    simp [validateAndConsumeTicket, ticketStorageGet, h]
  · intro d h hexp
    simp [validateAndConsumeTicket, ticketStorageGet, h, hexp]
  · intro d h hexp hused
    simp [validateAndConsumeTicket, ticketStorageGet, h, hexp, hused]
  · intro d h hexp hused
    simp [validateAndConsumeTicket, ticketStorageGet, h, hexp, hused]
  · intro u s' hsucc now'
    -- a successful consume always leaves `s.del id` as the store
    have hdel : s' = s.del id := by
      unfold validateAndConsumeTicket ticketStorageGet at hsucc
      rcases hget : s.get id with _ | d
      · simp [hget] at hsucc
      · by_cases hexp : d.expires < now
        · simp [hget, hexp] at hsucc
        · by_cases hused : d.used
          · simp [hget, hexp, hused] at hsucc
          · simp [hget, hexp, hused] at hsucc
            exact hsucc.2.symm
    subst hdel
    simp [validateAndConsumeTicket, ticketStorageGet, TicketStore.get_del]

/-- C2, witness: a fresh ticket consumes successfully exactly once, and the
very same call sequence rejects the second attempt. -/
theorem c2_consume_one_shot_witness :
    validateAndConsumeTicket 0
        [("t1", { userId := "u", expires := 50, used := false })] "t1" =
      (some "u", []) ∧
    (validateAndConsumeTicket 7 [] "t1").1 = none := by
  constructor
  · have h := (c2_consume_one_shot 0
      [("t1", { userId := "u", expires := 50, used := false })] "t1").2.2.2.1
      { userId := "u", expires := 50, used := false }
      (by decide) (by decide) (by decide)
    simpa using h
  · have h := (c2_consume_one_shot 0
      [("t1", { userId := "u", expires := 50, used := false })] "t1").2.2.2.2
      "u" [] (by decide) 7
    simpa using h

/-! ## C1 — per-session chunk counter and global time -/

/-- C1, the code-side behaviour at the failing input.  The message listener
of `handleSecureAudioSession` rebuilds the context object for every message
from the outer `let` variables; `handleAudioMessage` increments
`context.audioChunkCounter` and `context.globalTimeMs`, but those number
fields are value copies and are never written back.  Hence after
`audio_stream_start` followed by two `audio_chunk` messages, the reported
`global_time_ms` is still `0` — not `128·2` — and the
`audio_stream_end_ack` reports `receivedChunks = 0` — not `2`. -/
theorem c1_counter_never_persists :
    (secureSessionRun { useFireworks := false, debugMode := false } 0 "f" "i"
        (initialSessionVars "user_42" none)
        [ClientMessage.audioStreamStart,
         ClientMessage.audioChunk (some "") none none,
         ClientMessage.audioChunk (some "") none none,
         ClientMessage.audioStreamEnd]).2 =
      [ServerEffect.streamStartAck "user_42", ServerEffect.streamEndAck 0] ∧
    (secureSessionRun { useFireworks := false, debugMode := false } 0 "f" "i"
        (initialSessionVars "user_42" none)
        [ClientMessage.audioStreamStart,
         ClientMessage.audioChunk (some "") none none,
         ClientMessage.audioChunk (some "") none none,
         ClientMessage.audioStreamEnd]).1.globalTimeMs = 0 ∧
    ¬ (secureSessionRun { useFireworks := false, debugMode := false } 0 "f" "i"
        (initialSessionVars "user_42" none)
        [ClientMessage.audioStreamStart,
         ClientMessage.audioChunk (some "") none none,
         ClientMessage.audioChunk (some "") none none,
         ClientMessage.audioStreamEnd]).1.globalTimeMs = 128 * 2 := by
  refine ⟨rfl, rfl, by decide⟩

/-! ## C9 — missing Origin header skips the allowlist check -/

/-- C9.  An upgrade request with `Upgrade: websocket` and no `Origin` header
at all skips the origin allowlist check and upgrades; the 403 branch is
reachable only when an `Origin` header is present. -/
theorem c9_no_origin_skips_check (parties : Option String)
    (upgrade origin : Option String) :
    (upgrade = some "websocket" → origin = none →
      handleWebSocket parties upgrade origin = WSResponse.upgrade101) ∧
    (handleWebSocket parties upgrade origin = WSResponse.forbidden403 →
      origin.isSome = true) := by
  constructor
  · intro hu ho
    subst hu; subst ho
    simp [handleWebSocket]
  · intro h
    rcases origin with _ | o
    · rcases upgrade with _ | u <;> simp [handleWebSocket] at h
      by_cases hu : u = "websocket" <;> simp [handleWebSocket, hu] at h
    · rfl

/-- C9, witness: with no configuration and no `Origin`, the handler upgrades. -/
theorem c9_no_origin_skips_check_witness :
    handleWebSocket none (some "websocket") none = WSResponse.upgrade101 :=
  (c9_no_origin_skips_check none (some "websocket") none).1 rfl rfl

/-! ## C3 — origin allowlist -/

/-- C3, counterexample.  With `CLERK_AUTHORIZED_PARTIES = "example.com"`, an
`Origin` of `http://localhost:3000` is rejected with 403: the allowlist is
derived from the configuration alone, with no unconditional
`localhost`/`127.0.0.1` entries, so localhost is **not** always accepted. -/
theorem c3_counterexample :
    handleWebSocket (some "example.com") (some "websocket")
      (some "http://localhost:3000") = WSResponse.forbidden403 := by
  decide

/-- C3, amended.  For an upgrade request with `Upgrade: websocket` whose
`Origin` parses to hostname `h`, the handler upgrades iff `h` equals — or is
a `.`-separated subdomain of — some entry of the comma-separated
`CLERK_AUTHORIZED_PARTIES` value with its `:port` suffix stripped, the list
defaulting to `localhost:3000` when the variable is unset or empty; on any
other hostname it responds HTTP 403.  (`localhost` is accepted only when the
effective list covers it, e.g. under the default.) -/
theorem c3_origin_allowlist (parties : Option String) (o host : String)
    (hhost : urlHostname o = some host) :
    (handleWebSocket parties (some "websocket") (some o) = WSResponse.upgrade101
      ↔ originAllowedSpec parties host) ∧
    (handleWebSocket parties (some "websocket") (some o) = WSResponse.forbidden403
      ↔ ¬ originAllowedSpec parties host) := by
  have hspec : originAllowedSpec parties host ↔
      ((jsSplitChar ',' (effectiveParties parties)).any fun allowed =>
        host == stripPort allowed ||
          jsEndsWith host ("." ++ stripPort allowed)) = true := by
    rw [List.any_eq_true]
    unfold originAllowedSpec
    refine exists_congr fun a => and_congr_right fun _ => ?_
    rw [Bool.or_eq_true, beq_iff_eq]
  by_cases hb : ((jsSplitChar ',' (effectiveParties parties)).any fun allowed =>
      host == stripPort allowed ||
        jsEndsWith host ("." ++ stripPort allowed)) = true
  · have hresult : handleWebSocket parties (some "websocket") (some o) =
        WSResponse.upgrade101 := by
      simp only [handleWebSocket, hhost]
      simp [hb]
    rw [hresult, hspec]
    exact ⟨iff_of_true rfl hb, iff_of_false (by decide) (not_not_intro hb)⟩
  · have hresult : handleWebSocket parties (some "websocket") (some o) =
        WSResponse.forbidden403 := by
      have hb' : ((jsSplitChar ',' (effectiveParties parties)).any fun allowed =>
          host == stripPort allowed ||
            jsEndsWith host ("." ++ stripPort allowed)) = false := by
        cases h : ((jsSplitChar ',' (effectiveParties parties)).any fun allowed =>
            host == stripPort allowed ||
              jsEndsWith host ("." ++ stripPort allowed))
        · rfl
        · exact absurd h hb
      simp only [handleWebSocket, hhost]
      simp [hb']
    rw [hresult, hspec]
    exact ⟨iff_of_false (by decide) hb, iff_of_true rfl hb⟩

/-- C3, witness: with the variable unset the default list is
`localhost:3000`, so an `Origin` of `http://localhost:5000` (hostname
`localhost`, port stripped from the entry) upgrades. -/
theorem c3_origin_allowlist_witness :
    urlHostname "http://localhost:5000" = some "localhost" ∧
    handleWebSocket none (some "websocket") (some "http://localhost:5000") =
      WSResponse.upgrade101 := by
  refine ⟨by decide, ?_⟩
  exact (c3_origin_allowlist none "http://localhost:5000" "localhost"
    (by decide)).1.mpr ⟨"localhost:3000", by decide, Or.inl (by decide)⟩

/-! ## C5 — archiver upload key -/

/-- `sanitizeFilename` distributes over concatenation. -/
theorem sanitizeFilename_append (a b : String) :
    sanitizeFilename (a ++ b) = sanitizeFilename a ++ sanitizeFilename b := by
  apply String.ext
  simp [sanitizeFilename, String.data_append]

/-- Any filename ending in `.wav` has extension `.wav` (the dot of `.wav` is
the last dot of the string). -/
theorem getFileExtension_wav (u : String) :
    getFileExtension (u ++ ".wav") = ".wav" := by
  unfold getFileExtension
  have hdata : (u ++ ".wav").toList = u.data ++ ['.', 'w', 'a', 'v'] := by
    simp [String.toList, String.data_append]
  rw [hdata]
  have hcontains : (u.data ++ ['.', 'w', 'a', 'v']).contains '.' = true := by
    simp [List.elem_eq_mem]
  rw [if_pos hcontains]
  have hrev : (u.data ++ ['.', 'w', 'a', 'v']).reverse =
      'v' :: 'a' :: 'w' :: '.' :: u.data.reverse := by
    simp
  rw [hrev]
  have htake : ('v' :: 'a' :: 'w' :: '.' :: u.data.reverse).takeWhile
      (fun c => ¬ c = '.') = ['v', 'a', 'w'] := by
    simp [List.takeWhile]
  rw [htake]
  decide

/-- C5, counterexample.  A scheduled upload at `now = 120000` ms with
`uploadIntervalMs = 60000` and session id `s1` — the claim predicts the key
`audio-sessions/session_s1_original_2.wav`, but the code keys the object by
the freshly generated random file id (here `m3abc-x1`), and the
session/chunk-index name only goes into the `original-filename` metadata. -/
theorem c5_counterexample :
    ((scheduledUpload 120000 "m3abc-x1" "2025-01-01T00:00:00.000Z"
        { createAudioSession "s1" "u1" (secureSessionAudioConfig false) with
          slidingWindow := [{ timestamp := 0, data := [1, 2],
                              vadState := none, vadOffset := none }] }).2.map
      fun r => r.key) = some "audio-sessions/m3abc-x1.wav" ∧
    ¬ ((scheduledUpload 120000 "m3abc-x1" "2025-01-01T00:00:00.000Z"
        { createAudioSession "s1" "u1" (secureSessionAudioConfig false) with
          slidingWindow := [{ timestamp := 0, data := [1, 2],
                              vadState := none, vadOffset := none }] }).2.map
      fun r => r.key) = some "audio-sessions/session_s1_original_2.wav" := by
  constructor
  · rfl
  · intro h
    simp only [scheduledUpload, createAudioSession, secureSessionAudioConfig,
      r2UploadFile, Option.map] at h
    revert h
    decide

/-- C5, amended.  Every archiver upload goes to the object store under the
key `audio-sessions/{fileId}.wav`, where `fileId` is the freshly generated
random file id, with content type `audio/wav`; the name
`session_{sessionId}_original_{chunkIndex}.wav`, with
`chunkIndex = floor(now_ms / uploadIntervalMs)`, is recorded as the
`original-filename` custom metadata (and `chunkIndex` as `chunkId`). -/
theorem c5_upload_key (now : Nat) (fileId nowIso : String) (st : ArchiverState)
    (hact : st.isActive = true) (hup : st.isUploading = false)
    (hw : st.slidingWindow ≠ []) (horig : st.config.storeOriginalAudio = true) :
    ∃ r, (scheduledUpload now fileId nowIso st).2 = some r ∧
      r.key = "audio-sessions/" ++ fileId ++ ".wav" ∧
      r.contentType = "audio/wav" ∧
      ("original-filename", "session_" ++ st.sessionId ++ "_original_"
        ++ toString (now / st.config.uploadIntervalMs) ++ ".wav")
        ∈ r.customMetadata ∧
      ("chunkId", toString (now / st.config.uploadIntervalMs))
        ∈ r.customMetadata := by
  have hlen : ¬ st.slidingWindow.length = 0 := by
    simpa [List.length_eq_zero] using hw
  have hname : "session_" ++ st.sessionId ++ "_" ++ "original" ++ "_"
      ++ toString (now / st.config.uploadIntervalMs) ++ ".wav" =
      ("session_" ++ st.sessionId ++ "_original_"
        ++ toString (now / st.config.uploadIntervalMs)) ++ ".wav" := by
    apply String.ext
    simp [String.data_append]
  have hres : (scheduledUpload now fileId nowIso st).2 =
      some (r2UploadFile fileId nowIso
        (createOptimizedWavBlob (st.slidingWindow.map fun c => c.data))
        ("session_" ++ st.sessionId ++ "_" ++ "original" ++ "_"
          ++ toString (now / st.config.uploadIntervalMs) ++ ".wav")
        "audio/wav" st.userId (some "audio-sessions")
        [("sessionId", st.sessionId), ("audioType", "original"),
         ("chunkId", toString (now / st.config.uploadIntervalMs)),
         ("chunkCount", toString st.slidingWindow.length),
         ("startTimestamp",
           toString ((st.slidingWindow.head?.map fun c => c.timestamp).getD 0)),
         ("endTimestamp",
           toString ((st.slidingWindow.getLast?.map fun c => c.timestamp).getD 0)),
         ("duration", toString (st.slidingWindow.length * 128 / 1000) ++ "s"),
         ("isOriginalAudio", "true"), ("uploadedAt", nowIso)]) := by
    simp only [scheduledUpload, hact, hup, hlen, horig]
    simp
  refine ⟨_, hres, ?_, rfl, ?_, ?_⟩
  · -- the object key is folder/fileId + extension of the sanitized filename
    simp only [r2UploadFile, generateFilePath]
    have hsan : sanitizeFilename ("session_" ++ st.sessionId ++ "_" ++ "original"
        ++ "_" ++ toString (now / st.config.uploadIntervalMs) ++ ".wav") =
        sanitizeFilename ("session_" ++ st.sessionId ++ "_original_"
          ++ toString (now / st.config.uploadIntervalMs)) ++ ".wav" := by
      rw [hname, sanitizeFilename_append]
      congr 1
    rw [hsan, getFileExtension_wav]
    apply String.ext
    simp [String.data_append]
  · simp only [r2UploadFile]
    rw [hname]
    simp [String.append_assoc]
  · simp [r2UploadFile]

/-- C5, witness: a concrete upload carrying one chunk. -/
theorem c5_upload_key_witness :
    ∃ r, (scheduledUpload 120000 "m3abc-x1" "iso"
        { createAudioSession "s1" "u1" (secureSessionAudioConfig false) with
          slidingWindow := [{ timestamp := 0, data := [1, 2],
                              vadState := none, vadOffset := none }] }).2 = some r ∧
      r.key = "audio-sessions/" ++ "m3abc-x1" ++ ".wav" ∧
      r.contentType = "audio/wav" ∧
      ("original-filename", "session_" ++ "s1" ++ "_original_"
        ++ toString (120000 / (secureSessionAudioConfig false).uploadIntervalMs)
        ++ ".wav") ∈ r.customMetadata ∧
      ("chunkId", toString (120000 / (secureSessionAudioConfig false).uploadIntervalMs))
        ∈ r.customMetadata := by
  exact c5_upload_key 120000 "m3abc-x1" "iso" _ (by decide) (by decide)
    (by decide) (by decide)

/-! ## C8 — WAV assembly -/

/-- C8.  For a non-empty list of PCM segments (whose total size fits the
32-bit header fields), the assembled blob is the 44-byte RIFF/WAVE header —
`RIFF`, little-endian `36 + dataSize`, `WAVE`, `fmt `, subchunk size 16, PCM
format 1, 1 channel, sample rate 16000, byte rate 32000, block align 2, 16
bits per sample, `data`, little-endian `dataSize` — followed by the segments
concatenated in order, byte for byte. -/
theorem c8_wav_layout (segs : List (List Nat)) (_hne : segs ≠ [])
    (hfit : (segs.map List.length).sum + 36 < 2 ^ 32) :
    createOptimizedWavBlob segs =
      ([0x52, 0x49, 0x46, 0x46] ++ le32 (36 + (segs.map List.length).sum) ++
       [0x57, 0x41, 0x56, 0x45] ++ [0x66, 0x6d, 0x74, 0x20] ++
       le32 16 ++ le16 1 ++ le16 1 ++ le32 16000 ++ le32 32000 ++
       le16 2 ++ le16 16 ++ [0x64, 0x61, 0x74, 0x61] ++
       le32 ((segs.map List.length).sum)) ++ segs.flatten := by
  have h1 : (36 + (segs.map List.length).sum) % 2 ^ 32 =
      36 + (segs.map List.length).sum := Nat.mod_eq_of_lt (by omega)
  have h2 : (segs.map List.length).sum % 2 ^ 32 = (segs.map List.length).sum :=
    Nat.mod_eq_of_lt (by omega)
  simp only [createOptimizedWavBlob, setUint32LE, h1, h2]
  congr 1

/-- C8, witness: a two-segment payload. -/
theorem c8_wav_layout_witness :
    createOptimizedWavBlob [[1, 2, 3], [4, 5]] =
      ([0x52, 0x49, 0x46, 0x46] ++ le32 (36 + 5) ++
       [0x57, 0x41, 0x56, 0x45] ++ [0x66, 0x6d, 0x74, 0x20] ++
       le32 16 ++ le16 1 ++ le16 1 ++ le32 16000 ++ le32 32000 ++
       le16 2 ++ le16 16 ++ [0x64, 0x61, 0x74, 0x61] ++ le32 5) ++
      [1, 2, 3, 4, 5] := by
  have h := c8_wav_layout [[1, 2, 3], [4, 5]] (by decide) (by decide)
  simpa using h

/-! ## C6 — archiver sliding window -/

/-- C6, counterexample.  Two ~5.6 MB frames inside the 2-minute window push
the memory statistic over the 10 MB limit; `processAudioChunk` then runs the
emergency upload, which retains only the newest half of the window
(`slice(-keepCount)`).  The first frame was appended and its timestamp is
within `windowSizeMs` of the current time, yet after processing it is no
longer in the window — the window does not contain exactly the recent
entries. -/
theorem c6_counterexample :
    1100 < 1000 + (secureSessionAudioConfig false).windowSizeMs ∧
    (⟨1000, List.replicate 5600000 1, none, none⟩ : AudioChunkRec) ∉
      (processAudioChunk 1100 "f" "i"
        { createAudioSession "s" "u" (secureSessionAudioConfig false) with
          slidingWindow := [⟨1000, List.replicate 5600000 1, none, none⟩] }
        ⟨1100, List.replicate 5600000 2, none, none⟩).1.slidingWindow := by
  have hwin :
      (processAudioChunk 1100 "f" "i"
        { createAudioSession "s" "u" (secureSessionAudioConfig false) with
          slidingWindow := [⟨1000, List.replicate 5600000 1, none, none⟩] }
        ⟨1100, List.replicate 5600000 2, none, none⟩).1.slidingWindow =
      [⟨1100, List.replicate 5600000 2, none, none⟩] := by
    simp only [processAudioChunk, createAudioSession, secureSessionAudioConfig,
      maintainWindowSize, windowBytes, scheduledUpload, jsSliceNeg,
      List.filter, List.map_cons, List.map_nil, List.length_replicate,
      List.sum_cons, List.sum_nil, List.cons_append, List.nil_append,
      List.length_cons, List.length_nil]
    norm_num
  refine ⟨by decide, ?_⟩
  rw [hwin]
  intro hmem
  rw [List.mem_singleton] at hmem
  have := congrArg AudioChunkRec.timestamp hmem
  simp at this

/-- `scheduledUpload` never modifies the sliding window (the spec rule "do NOT
clear the live window"). -/
theorem scheduledUpload_window (now : Nat) (f i : String) (st : ArchiverState) :
    (scheduledUpload now f i st).1.slidingWindow = st.slidingWindow := by
  unfold scheduledUpload
  split
  · rfl
  · rfl

/-- Every chunk the archiver retains after processing came from the
time-filtered append. -/
theorem processAudioChunk_window_subset (now : Nat) (fileId nowIso : String)
    (st : ArchiverState) (chunk : AudioChunkRec) (hact : st.isActive = true)
    (horig : st.config.storeOriginalAudio = true) :
    ∀ c ∈ (processAudioChunk now fileId nowIso st chunk).1.slidingWindow,
      c ∈ (st.slidingWindow ++ [chunk]).filter
        (fun c => now < c.timestamp + st.config.windowSizeMs) := by
  intro c hc
  unfold processAudioChunk at hc
  rw [hact] at hc
  simp only [Bool.true_eq_false, not_true_eq_false, if_false, horig, if_true,
    ite_true, ite_false] at hc
  by_cases hmem : st.config.maxMemoryMB * 1048576 <
      windowBytes (maintainWindowSize st.config.windowSizeMs now
        (st.slidingWindow ++ [chunk]))
  · rw [if_pos hmem] at hc
    by_cases hupl : st.isUploading = true
    · rw [if_pos hupl] at hc
      simpa [maintainWindowSize] using hc
    · rw [if_neg hupl] at hc
      simp only [jsSliceNeg, scheduledUpload_window] at hc
      split at hc
      · simpa [maintainWindowSize] using hc
      · have := List.mem_of_mem_drop hc
        simpa [maintainWindowSize] using this
  · rw [if_neg hmem] at hc
    simpa [maintainWindowSize] using hc

/-- C6, amended.  For every frame processed by an active archiver with
`storeOriginalAudio = true` whose frame timestamps do not run ahead of the
wall clock: the frame is appended, and — provided the retained bytes stay
within the `maxMemoryMB` limit, so that no emergency halving occurs — the
window afterwards contains exactly the previously appended entries whose
timestamp `t` satisfies `now < t + windowSizeMs` (the source evicts
`t ≤ now − windowSizeMs`); in every case, all retained entries are that
recent, and `max(window.timestamp) − min(window.timestamp) ≤ windowSizeMs`. -/
theorem c6_window_invariant (now : Nat) (fileId nowIso : String)
    (st : ArchiverState) (chunk : AudioChunkRec)
    (hact : st.isActive = true) (horig : st.config.storeOriginalAudio = true)
    (hts : ∀ c ∈ st.slidingWindow, c.timestamp ≤ now)
    (hchunk : chunk.timestamp ≤ now) :
    (windowBytes ((st.slidingWindow ++ [chunk]).filter
        (fun c => now < c.timestamp + st.config.windowSizeMs)) ≤
          st.config.maxMemoryMB * 1048576 →
      (processAudioChunk now fileId nowIso st chunk).1.slidingWindow =
        (st.slidingWindow ++ [chunk]).filter
          (fun c => now < c.timestamp + st.config.windowSizeMs)) ∧
    (∀ c ∈ (processAudioChunk now fileId nowIso st chunk).1.slidingWindow,
      now < c.timestamp + st.config.windowSizeMs ∧ c.timestamp ≤ now) ∧
    (∀ c1 ∈ (processAudioChunk now fileId nowIso st chunk).1.slidingWindow,
     ∀ c2 ∈ (processAudioChunk now fileId nowIso st chunk).1.slidingWindow,
      c1.timestamp - c2.timestamp ≤ st.config.windowSizeMs) := by
  have hbounds : ∀ c ∈ (processAudioChunk now fileId nowIso st chunk).1.slidingWindow,
      now < c.timestamp + st.config.windowSizeMs ∧ c.timestamp ≤ now := by
    intro c hc
    have hc' := processAudioChunk_window_subset now fileId nowIso st chunk
      hact horig c hc
    rw [List.mem_filter] at hc'
    refine ⟨by simpa using hc'.2, ?_⟩
    rcases List.mem_append.mp hc'.1 with h | h
    · exact hts c h
    · rw [List.mem_singleton] at h
      subst h
      exact hchunk
  refine ⟨?_, hbounds, ?_⟩
  · intro hmem
    unfold processAudioChunk
    rw [hact]
    simp only [Bool.true_eq_false, not_true_eq_false, if_false, horig, if_true,
      ite_true, ite_false]
    rw [if_neg]
    · simp [maintainWindowSize]
    · simp only [maintainWindowSize] at hmem ⊢
      omega
  · intro c1 h1 c2 h2
    have b1 := hbounds c1 h1
    have b2 := hbounds c2 h2
    omega

/-- C6, witness: one small frame through the secure-session archiver
configuration. -/
theorem c6_window_invariant_witness :
    (processAudioChunk 0 "f" "i"
        (createAudioSession "s" "u" (secureSessionAudioConfig false))
        (⟨0, [1], none, none⟩ : AudioChunkRec)).1.slidingWindow =
      (([] : List AudioChunkRec) ++ [(⟨0, [1], none, none⟩ : AudioChunkRec)]).filter
        (fun c => 0 < c.timestamp + (secureSessionAudioConfig false).windowSizeMs) := by
  exact (c6_window_invariant 0 "f" "i"
    (createAudioSession "s" "u" (secureSessionAudioConfig false))
    (⟨0, [1], none, none⟩ : AudioChunkRec) (by decide) (by decide)
    (by intro c hc; simp [createAudioSession] at hc) (by decide)).1 (by decide)

/-! ## C10 — invalid base64 in an audio chunk -/

/-- In any uncorrupted buffer state (`length ≥ 0`), `getData` does not
throw. -/
theorem RingBuffer.getData_isSome (rb : RingBuffer) (h : 0 ≤ rb.length) :
    ∃ l, rb.getData = some l := by
  unfold RingBuffer.getData
  by_cases h0 : rb.length = 0
  · exact ⟨[], by simp [h0]⟩
  · have hneg : ¬ rb.length < 0 := by omega
    rw [if_neg h0, if_neg hneg]
    dsimp only
    split
    · exact ⟨_, rfl⟩
    · exact ⟨_, rfl⟩

theorem audioChunkStorageStep_none (wallNow : Nat) (fileId nowIso : String)
    (v : Option VadState) (o : Option Int) (ctx : AudioCtx) :
    audioChunkStorageStep wallNow fileId nowIso none v o ctx = (ctx, []) := by
  unfold audioChunkStorageStep
  rcases ctx.audioStorage <;> rfl

theorem audioChunkVadStartStep_fields (v : Option VadState) (o : Option Int)
    (ctx : AudioCtx) (hring : 0 ≤ ctx.ring.length) :
    (audioChunkVadStartStep v o ctx).1.audioChunkCounter = ctx.audioChunkCounter ∧
    (audioChunkVadStartStep v o ctx).1.globalTimeMs = ctx.globalTimeMs ∧
    (audioChunkVadStartStep v o ctx).1.ring = ctx.ring ∧
    (audioChunkVadStartStep v o ctx).2.2 = true ∧
    (v = none → audioChunkVadStartStep v o ctx = (ctx, [], true)) := by
  obtain ⟨bufferData, hbd⟩ := ctx.ring.getData_isSome hring
  unfold audioChunkVadStartStep
  rcases v with _ | v
  · simp
  · rcases hv : v <;> rcases o with _ | ov <;>
      simp only [hbd, reduceIte] <;>
      (first
        | (split_ifs <;> simp_all [hbd])
        | simp_all [hbd])

theorem audioChunkCacheStep_fields (c : Option (List Nat)) (v : Option VadState)
    (ctx : AudioCtx) :
    (audioChunkCacheStep c v ctx).audioChunkCounter = ctx.audioChunkCounter ∧
    (audioChunkCacheStep c v ctx).globalTimeMs = ctx.globalTimeMs ∧
    (audioChunkCacheStep c v ctx).ring = ctx.ring ∧
    (c = none → audioChunkCacheStep c v ctx = ctx) := by
  rcases c with _ | bytes
  · simp [audioChunkCacheStep]
  · unfold audioChunkCacheStep
    split_ifs <;> simp

theorem audioChunkRingStep_none (ctx : AudioCtx) :
    audioChunkRingStep none ctx = (ctx, true) := rfl

theorem audioChunkTriggerStep_none_vad (env : AudioEnv)
    (c : Option (List Nat)) (o : Option Int) (ctx : AudioCtx) :
    audioChunkTriggerStep env c none o ctx = [] := by
  unfold audioChunkTriggerStep
  rw [if_neg]
  rintro ⟨h, -⟩
  exact Option.noConfusion h

theorem audioChunkEndStep_fields (env : AudioEnv) (c : Option (List Nat))
    (v : Option VadState) (o : Option Int) (ctx : AudioCtx) :
    (audioChunkEndStep env c v o ctx).1.audioChunkCounter = ctx.audioChunkCounter ∧
    (audioChunkEndStep env c v o ctx).1.globalTimeMs = ctx.globalTimeMs ∧
    (audioChunkEndStep env c v o ctx).1.ring = ctx.ring ∧
    (v = none → audioChunkEndStep env c v o ctx = (ctx, [])) := by
  unfold audioChunkEndStep
  rcases v with _ | v
  · simp
  · rcases hv : v <;> rcases c with _ | bytes <;> rcases o with _ | ov <;>
      dsimp only <;> split_ifs <;> simp_all

/-- `audioChunkCacheStep` ignores a missing chunk. -/
theorem audioChunkCacheStep_none (v : Option VadState) (ctx : AudioCtx) :
    audioChunkCacheStep none v ctx = ctx := rfl

/-- Processing an `audio_chunk` that decodes to no payload: the chunk counter
still increments, global time still advances by exactly 128 ms, the handler
completes without an exception, and a chunk with no VAD annotation sends
nothing at all. -/
theorem handleAudioMessage_no_payload (env : AudioEnv) (wallNow : Nat)
    (fileId nowIso : String) (ctx : AudioCtx) (vad : Option VadState)
    (off : Option Int) (data : Option String)
    (hdec : audioChunkDecode data = none) (hring : 0 ≤ ctx.ring.length) :
    (handleAudioMessage env wallNow fileId nowIso ctx
        (ClientMessage.audioChunk data vad off)).1.audioChunkCounter =
      ctx.audioChunkCounter + 1 ∧
    (handleAudioMessage env wallNow fileId nowIso ctx
        (ClientMessage.audioChunk data vad off)).1.globalTimeMs =
      ctx.globalTimeMs + 128 ∧
    (handleAudioMessage env wallNow fileId nowIso ctx
        (ClientMessage.audioChunk data vad off)).2.2 = true ∧
    (vad = none →
      (handleAudioMessage env wallNow fileId nowIso ctx
        (ClientMessage.audioChunk data vad off)).2.1 = []) := by
  obtain ⟨hc1, hg1, hr1, hok1, hnone1⟩ := audioChunkVadStartStep_fields vad off
    { ctx with audioChunkCounter := ctx.audioChunkCounter + 1 } hring
  rcases hstart : audioChunkVadStartStep vad off
      { ctx with audioChunkCounter := ctx.audioChunkCounter + 1 }
    with ⟨ctxS, se, okS⟩
  rw [hstart] at hc1 hg1 hr1 hok1 hnone1
  simp only at hc1 hg1 hr1 hok1
  subst hok1
  obtain ⟨hcE, hgE, hrE, hnoneE⟩ := audioChunkEndStep_fields env none vad off
    { ctxS with globalTimeMs := ctxS.globalTimeMs + CHUNK_DURATION_MS }
  rcases hend : audioChunkEndStep env none vad off
      { ctxS with globalTimeMs := ctxS.globalTimeMs + CHUNK_DURATION_MS }
    with ⟨ctxE, ee⟩
  rw [hend] at hcE hgE hrE hnoneE
  simp only at hcE hgE hrE
  have hmain : handleAudioMessage env wallNow fileId nowIso ctx
      (ClientMessage.audioChunk data vad off) =
      (ctxE, [] ++ se ++ (audioChunkTriggerStep env none vad off
        { ctxS with globalTimeMs := ctxS.globalTimeMs + CHUNK_DURATION_MS }) ++ ee,
       true) := by
    simp only [handleAudioMessage, hdec, audioChunkStorageStep_none, hstart,
      audioChunkCacheStep_none, audioChunkRingStep_none, hend]
  rw [hmain]
  refine ⟨by simp [hcE, hgE, hc1, hg1], by simp [hcE, hgE, hc1, hg1,
    CHUNK_DURATION_MS], rfl, ?_⟩
  intro hv
  subst hv
  have hse : se = [] := by
    have := hnone1 rfl
    simp only [Prod.mk.injEq] at this
    exact this.2.1
  have hee : ee = [] := by
    have := hnoneE rfl
    simp only [Prod.mk.injEq] at this
    exact this.2
  simp [hse, hee, audioChunkTriggerStep_none_vad]

/-- A non-empty string has positive length. -/
theorem string_length_pos_of_ne (s : String) (h : ¬ s = "") : 0 < s.length := by
  rcases s with ⟨l⟩
  rcases l with _ | ⟨c, cs⟩
  · simp at h
  · simp [String.length]

/-- C10.  An `audio_chunk` whose `data` is a non-empty string that is not
valid base64 is handled exactly like a chunk with empty payload: the decode
error is caught, the resulting context and the emitted frames are identical
to those for `data = ""` (in particular no decode-error message is sent), the
chunk counter still increments, global time still advances by 128 ms, and a
chunk with no VAD annotation emits nothing at all. -/
theorem c10_invalid_base64 (env : AudioEnv) (wallNow : Nat)
    (fileId nowIso : String) (ctx : AudioCtx) (s : String)
    (vad : Option VadState) (off : Option Int)
    (hne : ¬ s = "") (hdec : optimizedBase64Decode s = none)
    (hring : 0 ≤ ctx.ring.length) :
    handleAudioMessage env wallNow fileId nowIso ctx
        (ClientMessage.audioChunk (some s) vad off) =
      handleAudioMessage env wallNow fileId nowIso ctx
        (ClientMessage.audioChunk (some "") vad off) ∧
    (handleAudioMessage env wallNow fileId nowIso ctx
        (ClientMessage.audioChunk (some s) vad off)).1.audioChunkCounter =
      ctx.audioChunkCounter + 1 ∧
    (handleAudioMessage env wallNow fileId nowIso ctx
        (ClientMessage.audioChunk (some s) vad off)).1.globalTimeMs =
      ctx.globalTimeMs + 128 ∧
    (handleAudioMessage env wallNow fileId nowIso ctx
        (ClientMessage.audioChunk (some s) vad off)).2.2 = true ∧
    (vad = none →
      (handleAudioMessage env wallNow fileId nowIso ctx
        (ClientMessage.audioChunk (some s) vad off)).2.1 = []) := by
  have hdecs : audioChunkDecode (some s) = none := by
    simp only [audioChunkDecode, if_pos (string_length_pos_of_ne s hne)]
    exact hdec
  have hdece : audioChunkDecode (some "") = none := rfl
  refine ⟨?_, handleAudioMessage_no_payload env wallNow fileId nowIso ctx vad off
    (some s) hdecs hring⟩
  simp only [handleAudioMessage, hdecs, hdece]

/-- C10, witness: `data = "!!"` (invalid base64) on a fresh post-auth
context. -/
theorem c10_invalid_base64_witness :
    handleAudioMessage { useFireworks := false, debugMode := false } 0 "f" "i"
        { audioChunkCounter := 0, globalTimeMs := 0, isCaching := false,
          cache := CacheState.init [], ring := RingBuffer.ofCapacity 8192,
          speechStartTimeMs := 0, userId := "u", audioStorage := none }
        (ClientMessage.audioChunk (some "!!") none none) =
      handleAudioMessage { useFireworks := false, debugMode := false } 0 "f" "i"
        { audioChunkCounter := 0, globalTimeMs := 0, isCaching := false,
          cache := CacheState.init [], ring := RingBuffer.ofCapacity 8192,
          speechStartTimeMs := 0, userId := "u", audioStorage := none }
        (ClientMessage.audioChunk (some "") none none) ∧
    (handleAudioMessage { useFireworks := false, debugMode := false } 0 "f" "i"
        { audioChunkCounter := 0, globalTimeMs := 0, isCaching := false,
          cache := CacheState.init [], ring := RingBuffer.ofCapacity 8192,
          speechStartTimeMs := 0, userId := "u", audioStorage := none }
        (ClientMessage.audioChunk (some "!!") none none)).1.audioChunkCounter = 1 ∧
    (handleAudioMessage { useFireworks := false, debugMode := false } 0 "f" "i"
        { audioChunkCounter := 0, globalTimeMs := 0, isCaching := false,
          cache := CacheState.init [], ring := RingBuffer.ofCapacity 8192,
          speechStartTimeMs := 0, userId := "u", audioStorage := none }
        (ClientMessage.audioChunk (some "!!") none none)).1.globalTimeMs = 128 ∧
    (handleAudioMessage { useFireworks := false, debugMode := false } 0 "f" "i"
        { audioChunkCounter := 0, globalTimeMs := 0, isCaching := false,
          cache := CacheState.init [], ring := RingBuffer.ofCapacity 8192,
          speechStartTimeMs := 0, userId := "u", audioStorage := none }
        (ClientMessage.audioChunk (some "!!") none none)).2.1 = [] := by
  obtain ⟨heq, hcount, hglobal, _hok, heffs⟩ := c10_invalid_base64
    { useFireworks := false, debugMode := false } 0 "f" "i"
    { audioChunkCounter := 0, globalTimeMs := 0, isCaching := false,
      cache := CacheState.init [], ring := RingBuffer.ofCapacity 8192,
      speechStartTimeMs := 0, userId := "u", audioStorage := none }
    "!!" none none (by decide) (by decide) (by decide)
  exact ⟨heq, hcount, hglobal, heffs rfl⟩

/-! ## C7 — ring buffer -/

/-- C7, counterexample.  A single 33000-byte append to a fresh capacity-8192
ring buffer drives `length` negative in the eviction step; the second
`buffer.set` of the wrap-around write is then out of bounds and throws a
`RangeError` (`33000 - 16384 > 16384`), leaving the object corrupted
(`length = -24808`), after which `getData` itself throws — it cannot return
the most recent `min(total, 8192)` bytes. -/
theorem c7_counterexample :
    ((RingBuffer.ofCapacity 8192).append (List.replicate 33000 0)).2 = false ∧
    ((RingBuffer.ofCapacity 8192).append (List.replicate 33000 0)).1.length =
      -24808 ∧
    ((RingBuffer.ofCapacity 8192).append (List.replicate 33000 0)).1.getData =
      none := by
  have key : ∀ d : List Nat, d.length = 33000 →
      ((RingBuffer.ofCapacity 8192).append d).2 = false ∧
      ((RingBuffer.ofCapacity 8192).append d).1.length = -24808 ∧
      ((RingBuffer.ofCapacity 8192).append d).1.getData = none := by
    intro d hlen
    have h1 : (jsSubarray d 0 16384).length = 16384 := by
      simp [jsSubarray, hlen]
    have h2 : (jsSubarray d 16384 33000).length = 16616 := by
      simp [jsSubarray, hlen]
    refine ⟨?_, ?_, ?_⟩ <;>
      (unfold RingBuffer.append RingBuffer.ofCapacity
       simp only [hlen]
       norm_num [jsMod, typedArraySet, h1, h2, RingBuffer.getData])
  exact key (List.replicate 33000 0) (List.length_replicate 33000 0)

/-- The representation invariant tying a capacity-8192 ring buffer state to
the history of bytes appended since the last clear: `length` is the byte
count capped at 8192, `start` points at the oldest live byte, and the live
region holds the most recent `length` bytes of the history in order. -/
structure RingInv (rb : RingBuffer) (hist : List Nat) : Prop where
  cap : rb.maxBytes = 8192
  start_nonneg : 0 ≤ rb.start
  start_lt : rb.start < 16384
  len_eq : rb.length = ((min hist.length 8192 : Nat) : Int)
  content : ∀ i : Nat, i < min hist.length 8192 →
    rb.buffer ((rb.start.toNat + i) % 16384) =
      hist.getD (hist.length - min hist.length 8192 + i) 0

/-- A fresh buffer satisfies the invariant with an empty history. -/
theorem ringInv_init : RingInv (RingBuffer.ofCapacity 8192) [] := by
  refine ⟨rfl, le_refl 0, by norm_num [RingBuffer.ofCapacity], by
    simp [RingBuffer.ofCapacity], ?_⟩
  intro i hi
  simp at hi

/-- An in-bounds `TypedArray.set` succeeds and its effect is the pointwise
overwrite of the target interval. -/
theorem typedArraySet_inBounds (buf : Nat → Nat) (bufLen : Nat)
    (data : List Nat) (wsN : Nat) (hfit : wsN + data.length ≤ bufLen) :
    ∃ f, typedArraySet buf bufLen data (wsN : Int) = some f ∧
      (∀ j, j < data.length → f (wsN + j) = data.getD j 0) ∧
      (∀ p, (∀ j, j < data.length → p ≠ wsN + j) → f p = buf p) := by
  unfold typedArraySet
  rw [if_neg (by omega)]
  refine ⟨_, rfl, ?_, ?_⟩
  · intro j hj
    rw [if_pos]
    · congr 1
      omega
    · constructor
      · omega
      · simp only [Int.toNat_ofNat, Int.toNat_natCast]
        omega
  · intro p hp
    rw [if_neg]
    rintro ⟨h1, h2⟩
    simp only [Int.toNat_natCast] at h1 h2
    exact hp (p - wsN) (by omega) (by omega)

/-- The in-bounds write phase of `RingBuffer.append` (no wrap): the write
succeeds and yields `d` at positions `(ws + j) % 16384`, old bytes
elsewhere. -/
theorem ringWrite_fit (buf : Nat → Nat) (d : List Nat) (wsN : Nat)
    (hfit : wsN + d.length ≤ 16384) :
    ∃ f, typedArraySet buf (2 * 8192) d (wsN : Int) = some f ∧
      (∀ j, j < d.length → f ((wsN + j) % 16384) = d.getD j 0) ∧
      (∀ p, (∀ j, j < d.length → p ≠ (wsN + j) % 16384) → f p = buf p) := by
  obtain ⟨f, hset, hw, hu⟩ := typedArraySet_inBounds buf (2 * 8192) d wsN
    (by omega)
  refine ⟨f, hset, ?_, ?_⟩
  · intro j hj
    rw [Nat.mod_eq_of_lt (by omega)]
    exact hw j hj
  · intro p hp
    refine hu p fun j hj heq => ?_
    exact hp j hj (by rw [heq, Nat.mod_eq_of_lt (by omega)])

/-- The wrap-around write phase of `RingBuffer.append`: both split writes
succeed and the combined effect places `d` at positions `(ws + j) % 16384`,
leaving old bytes elsewhere. -/
theorem ringWrite_split (buf : Nat → Nat) (d : List Nat) (wsN : Nat)
    (hws : wsN < 16384) (hd : d.length ≤ 8192)
    (hover : ¬ wsN + d.length ≤ 16384) :
    ∃ f1 f2,
      typedArraySet buf (2 * 8192)
        (jsSubarray d 0 (((2 * 8192 : Nat) : Int) - (wsN : Int))) (wsN : Int) =
        some f1 ∧
      typedArraySet f1 (2 * 8192)
        (jsSubarray d (((2 * 8192 : Nat) : Int) - (wsN : Int))
          ((d.length : Nat) : Int)) 0 = some f2 ∧
      (∀ j, j < d.length → f2 ((wsN + j) % 16384) = d.getD j 0) ∧
      (∀ p, (∀ j, j < d.length → p ≠ (wsN + j) % 16384) → f2 p = buf p) := by
  have hfp : (((2 * 8192 : Nat) : Int) - (wsN : Int)) =
      ((16384 - wsN : Nat) : Int) := by
    push_cast
    omega
  set fp := 16384 - wsN with hfpdef
  have hfplt : fp < d.length := by omega
  have hsub1 : jsSubarray d 0 (((2 * 8192 : Nat) : Int) - (wsN : Int)) =
      d.take fp := by
    rw [hfp]
    simp [jsSubarray]
  have hsub2 : jsSubarray d (((2 * 8192 : Nat) : Int) - (wsN : Int))
      ((d.length : Nat) : Int) = d.drop fp := by
    rw [hfp]
    simp [jsSubarray]
  obtain ⟨f1, hset1, hw1, hu1⟩ := typedArraySet_inBounds buf (2 * 8192)
    (d.take fp) wsN (by simp; omega)
  obtain ⟨f2, hset2, hw2, hu2⟩ := typedArraySet_inBounds f1 (2 * 8192)
    (d.drop fp) 0 (by simp; omega)
  have hset2' : typedArraySet f1 (2 * 8192) (d.drop fp) (0 : Int) = some f2 := by
    exact_mod_cast hset2
  refine ⟨f1, f2, by rw [hsub1]; exact hset1, by rw [hsub2]; exact hset2', ?_, ?_⟩
  · intro j hj
    by_cases hjfp : j < fp
    · have hpos : (wsN + j) % 16384 = wsN + j := Nat.mod_eq_of_lt (by omega)
      rw [hpos]
      have huntouched : f2 (wsN + j) = f1 (wsN + j) := by
        refine hu2 (wsN + j) fun j' hj' heq => ?_
        simp only [List.length_drop] at hj'
        omega
      rw [huntouched]
      have := hw1 j (by simp; omega)
      rw [this]
      rw [List.getD_eq_getElem?_getD, List.getD_eq_getElem?_getD,
        List.getElem?_take]
      simp [hjfp]
    · have hpos : (wsN + j) % 16384 = j - fp := by
        have h1 : wsN + j = 16384 + (j - fp) := by omega
        rw [h1, Nat.add_mod_left, Nat.mod_eq_of_lt (by omega)]
      rw [hpos]
      have := hw2 (j - fp) (by simp; omega)
      simp only [Nat.zero_add] at this
      rw [this]
      rw [List.getD_eq_getElem?_getD, List.getD_eq_getElem?_getD,
        List.getElem?_drop]
      congr 2
      omega
  · intro p hp
    have h2 : f2 p = f1 p := by
      refine hu2 p fun j' hj' heq => ?_
      simp only [List.length_drop] at hj'
      refine hp (fp + j') (by omega) ?_
      rw [heq]
      have h16 : wsN + (fp + j') = 16384 + j' := by omega
      rw [h16, Nat.add_mod_left, Nat.mod_eq_of_lt (by omega)]
      omega
    rw [h2]
    refine hu1 p fun j hj heq => ?_
    simp only [List.length_take] at hj
    refine hp j (by omega) ?_
    rw [heq, Nat.mod_eq_of_lt (by omega)]

/-- Under the invariant, `getData` returns exactly the most recent
`min(total, 8192)` bytes of the appended history, in order. -/
theorem RingInv.getData_eq {rb : RingBuffer} {hist : List Nat}
    (inv : RingInv rb hist) :
    rb.getData = some (takeLastN hist 8192) := by
  have hsN : rb.start = ((rb.start.toNat : Nat) : Int) :=
    (Int.toNat_of_nonneg inv.start_nonneg).symm
  have hsNlt : rb.start.toNat < 16384 := by
    have := inv.start_lt
    omega
  have key : (List.range (min hist.length 8192)).map
      (fun i => rb.buffer ((rb.start.toNat + i) % 16384)) =
      takeLastN hist 8192 := by
    apply List.ext_getElem
    · simp [takeLastN]
      omega
    · intro i hi1 hi2
      simp only [List.getElem_map, List.getElem_range]
      have hi : i < min hist.length 8192 := by simpa using hi1
      rw [inv.content i hi]
      have hidx : hist.length - min hist.length 8192 + i < hist.length := by
        omega
      rw [List.getD_eq_getElem hist 0 hidx]
      simp only [takeLastN]
      rw [List.getElem_drop]
      simp only [show hist.length - min hist.length 8192 + i =
        hist.length - 8192 + i from by omega]
  unfold RingBuffer.getData
  by_cases hL0 : min hist.length 8192 = 0
  · rw [if_pos (by rw [inv.len_eq, hL0]; rfl)]
    have hH : hist.length = 0 := by omega
    have hnil : takeLastN hist 8192 = [] := by
      have := List.eq_nil_of_length_eq_zero hH
      simp [takeLastN, this]
    rw [hnil]
  · have hlen_ne : ¬ rb.length = 0 := by
      rw [inv.len_eq]
      simp
      omega
    have hlen_neg : ¬ rb.length < 0 := by
      rw [inv.len_eq]
      omega
    rw [if_neg hlen_ne, if_neg hlen_neg]
    dsimp only
    rw [inv.cap, inv.len_eq]
    simp only [Int.toNat_natCast]
    norm_num
    split
    next hcont =>
      refine congrArg some (Eq.trans ?_ key)
      rw [hsN] at hcont
      apply List.map_congr_left
      intro i hi
      rw [List.mem_range] at hi
      congr 1
      rw [Nat.mod_eq_of_lt]
      omega
    next hcont =>
      refine congrArg some (Eq.trans ?_ key)
      rw [hsN] at hcont
      have hsplit : min hist.length 8192 =
          (16384 - rb.start.toNat) +
            (min hist.length 8192 - (16384 - rb.start.toNat)) := by
        omega
      rw [hsplit, List.range_add, List.map_append, List.map_map]
      rw [← hsplit]
      congr 1
      · apply List.map_congr_left
        intro i hi
        rw [List.mem_range] at hi
        congr 1
        rw [Nat.mod_eq_of_lt]
        omega
      · apply List.map_congr_left
        intro i hi
        rw [List.mem_range] at hi
        simp only [Function.comp]
        congr 1
        have h16 : rb.start.toNat + ((16384 - rb.start.toNat) + i) = 16384 + i := by
          omega
        rw [h16, Nat.add_mod_left, Nat.mod_eq_of_lt]
        omega

/-- The write phase of `RingBuffer.append` after start/length renormalization:
with the new start `s1N` and retained length `L1` in range, the write
completes and the resulting state holds `d` after the retained region. -/
theorem ringAppendCore_spec (buf0 : Nat → Nat) (d : List Nat) (s1N L1 : Nat)
    (hL1D : L1 + d.length ≤ 8192) :
    ∃ f,
      (if jsMod ((s1N : Int) + (L1 : Int)) ((2 * 8192 : Nat) : Int) +
          ((d.length : Nat) : Int) ≤ ((2 * 8192 : Nat) : Int) then
        match typedArraySet buf0 (2 * 8192) d
            (jsMod ((s1N : Int) + (L1 : Int)) ((2 * 8192 : Nat) : Int)) with
        | some buf' =>
          (({ maxBytes := 8192, buffer := buf', start := (s1N : Int),
              length := (L1 : Int) + ((d.length : Nat) : Int) } : RingBuffer),
           true)
        | none =>
          (({ maxBytes := 8192, buffer := buf0, start := (s1N : Int),
              length := (L1 : Int) } : RingBuffer), false)
      else
        match typedArraySet buf0 (2 * 8192)
            (jsSubarray d 0 (((2 * 8192 : Nat) : Int) -
              jsMod ((s1N : Int) + (L1 : Int)) ((2 * 8192 : Nat) : Int)))
            (jsMod ((s1N : Int) + (L1 : Int)) ((2 * 8192 : Nat) : Int)) with
        | some buf' =>
          match typedArraySet buf' (2 * 8192)
              (jsSubarray d (((2 * 8192 : Nat) : Int) -
                jsMod ((s1N : Int) + (L1 : Int)) ((2 * 8192 : Nat) : Int))
                ((d.length : Nat) : Int)) 0 with
          | some buf'' =>
            (({ maxBytes := 8192, buffer := buf'', start := (s1N : Int),
                length := (L1 : Int) + ((d.length : Nat) : Int) } : RingBuffer),
             true)
          | none =>
            (({ maxBytes := 8192, buffer := buf', start := (s1N : Int),
                length := (L1 : Int) } : RingBuffer), false)
        | none =>
          (({ maxBytes := 8192, buffer := buf0, start := (s1N : Int),
              length := (L1 : Int) } : RingBuffer), false)) =
      (({ maxBytes := 8192, buffer := f, start := (s1N : Int),
          length := ((L1 + d.length : Nat) : Int) } : RingBuffer), true) ∧
      (∀ j, j < d.length → f ((s1N + L1 + j) % 16384) = d.getD j 0) ∧
      (∀ p, (∀ j, j < d.length → p ≠ (s1N + L1 + j) % 16384) → f p = buf0 p) := by
  have hcast : ((L1 : Int) + ((d.length : Nat) : Int)) =
      ((L1 + d.length : Nat) : Int) := by
    push_cast
    ring
  have h3 : jsMod ((s1N : Int) + (L1 : Int)) ((2 * 8192 : Nat) : Int) =
      (((s1N + L1) % 16384 : Nat) : Int) := by
    unfold jsMod
    rw [if_pos (by positivity)]
    push_cast
    omega
  rw [h3, hcast]
  have hwslt : (s1N + L1) % 16384 < 16384 := Nat.mod_lt _ (by norm_num)
  by_cases hfit : (s1N + L1) % 16384 + d.length ≤ 16384
  · rw [if_pos (by push_cast; omega)]
    obtain ⟨f, hset, hw, hu⟩ := ringWrite_fit buf0 d ((s1N + L1) % 16384)
      (by omega)
    rw [hset]
    refine ⟨f, rfl, ?_, ?_⟩
    · intro j hj
      rw [← Nat.mod_add_mod]
      exact hw j hj
    · intro p hp
      refine hu p fun j hj heq => ?_
      refine hp j hj ?_
      rw [heq, Nat.mod_add_mod]
  · rw [if_neg (by push_cast; omega)]
    obtain ⟨f1, f2, hset1, hset2, hw, hu⟩ := ringWrite_split buf0 d
      ((s1N + L1) % 16384) hwslt (by omega) hfit
    rw [hset1]
    dsimp only
    rw [hset2]
    refine ⟨f2, rfl, ?_, ?_⟩
    · intro j hj
      rw [← Nat.mod_add_mod]
      exact hw j hj
    · intro p hp
      refine hu p fun j hj heq => ?_
      refine hp j hj ?_
      rw [heq, Nat.mod_add_mod]

/-- `RingBuffer.append` on a well-formed state with `data.length <= maxBytes`:
the append completes (`ok = true`), yields the renormalized start `s1N` and
length `L1 + data.length`, writes `data` at offsets `s1N + L1 + j` modulo the
backing length, and leaves every other cell untouched. -/
theorem RingBuffer.append_spec (rb : RingBuffer) (d : List Nat)
    (sN L L1 s1N : Nat)
    (hcap : rb.maxBytes = 8192) (hstart : rb.start = (sN : Int))
    (hlen : rb.length = (L : Int)) (hslt : sN < 16384)
    (hd : d.length ≤ 8192)
    (hL1 : L1 = min L (8192 - d.length))
    (hs1 : s1N = (sN + (L - L1)) % 16384) :
    ∃ f, rb.append d =
      (({ maxBytes := 8192, buffer := f, start := (s1N : Int),
          length := ((L1 + d.length : Nat) : Int) } : RingBuffer), true) ∧
      (∀ j, j < d.length → f ((s1N + L1 + j) % 16384) = d.getD j 0) ∧
      (∀ p, (∀ j, j < d.length → p ≠ (s1N + L1 + j) % 16384) →
        f p = rb.buffer p) := by
  unfold RingBuffer.append
  rw [hcap, hstart, hlen]
  dsimp only
  by_cases hev : 8192 < L + d.length
  · have hc : (((8192 : Nat)) : Int) < (L : Int) + ((d.length : Nat) : Int) := by
      exact_mod_cast hev
    simp only [if_pos hc]
    have h1 : jsMod ((sN : Int) + ((L : Int) + ((d.length : Nat) : Int) -
        (((8192 : Nat)) : Int))) (((2 * 8192 : Nat)) : Int) =
        ((s1N : Nat) : Int) := by
      unfold jsMod
      rw [if_pos (by push_cast; omega)]
      push_cast
      omega
    have h2 : ((L : Int) - ((L : Int) + ((d.length : Nat) : Int) -
        (((8192 : Nat)) : Int))) = ((L1 : Nat) : Int) := by
      push_cast
      omega
    rw [h1, h2]
    exact ringAppendCore_spec rb.buffer d s1N L1 (by omega)
  · have hc : ¬ ((((8192 : Nat)) : Int) < (L : Int) +
        ((d.length : Nat) : Int)) := by
      push_cast
      omega
    simp only [if_neg hc]
    rw [show ((sN : Nat) : Int) = ((s1N : Nat) : Int) from by
          congr 1
          omega,
        show ((L : Nat) : Int) = ((L1 : Nat) : Int) from by
          congr 1
          omega]
    exact ringAppendCore_spec rb.buffer d s1N L1 (by omega)

/-- Appending a chunk of at most `maxBytes` bytes preserves the ring-buffer
invariant (with the chunk appended to the history) and never throws. -/
theorem RingInv.append_pres {rb : RingBuffer} {hist : List Nat}
    (inv : RingInv rb hist) (d : List Nat) (hd : d.length ≤ 8192) :
    (rb.append d).2 = true ∧ RingInv (rb.append d).1 (hist ++ d) := by
  have hsN : rb.start = ((rb.start.toNat : Nat) : Int) :=
    (Int.toNat_of_nonneg inv.start_nonneg).symm
  have hslt : rb.start.toNat < 16384 := by
    have := inv.start_lt
    omega
  obtain ⟨f, heq, hw, hu⟩ := RingBuffer.append_spec rb d rb.start.toNat
    (min hist.length 8192) (min (min hist.length 8192) (8192 - d.length))
    ((rb.start.toNat + (min hist.length 8192 -
      min (min hist.length 8192) (8192 - d.length))) % 16384)
    inv.cap hsN inv.len_eq hslt hd rfl rfl
  rw [heq]
  set H := hist.length with hH
  set D := d.length with hD
  set L := min H 8192 with hLdef
  set L1 := min L (8192 - D) with hL1def
  set s1N := (rb.start.toNat + (L - L1)) % 16384 with hs1def
  have hs1lt : s1N < 16384 := Nat.mod_lt _ (by norm_num)
  refine ⟨rfl, ?_, ?_, ?_, ?_, ?_⟩
  · rfl
  · exact Int.natCast_nonneg s1N
  · dsimp only
    exact_mod_cast hs1lt
  · dsimp only
    rw [List.length_append]
    congr 1
    omega
  · intro i hi
    dsimp only
    rw [Int.toNat_natCast]
    rw [List.length_append] at hi
    have hM : min (hist.length + d.length) 8192 = L1 + D := by omega
    rw [hM] at hi
    rw [List.length_append,
      show hist.length + d.length - min (hist.length + d.length) 8192 + i =
        H - L1 + i from by omega]
    by_cases hiL1 : i < L1
    · have hne : ∀ j, j < d.length →
          (s1N + i) % 16384 ≠ (s1N + L1 + j) % 16384 := by
        intro j hj habs
        have h1 : (s1N + i) % 16384 = (s1N + (L1 + j)) % 16384 := by
          rw [habs, Nat.add_assoc]
        have h2 : i % 16384 = (L1 + j) % 16384 :=
          Nat.ModEq.add_left_cancel' s1N h1
        rw [Nat.mod_eq_of_lt (by omega), Nat.mod_eq_of_lt (by omega)] at h2
        omega
      rw [hu _ hne]
      have hpos : (s1N + i) % 16384 =
          (rb.start.toNat + (L - L1 + i)) % 16384 := by
        rw [hs1def, Nat.mod_add_mod, Nat.add_assoc]
      rw [hpos, inv.content (L - L1 + i) (by omega)]
      rw [List.getD_append _ _ _ _ (by omega)]
      congr 1
      omega
    · rw [show s1N + i = s1N + L1 + (i - L1) from by omega,
        hw (i - L1) (by omega)]
      rw [List.getD_append_right _ _ _ _ (by omega)]
      congr 1
      omega

/-- `appendAll` unfolded to a fold of the bare step function. -/
theorem RingBuffer.appendAll_eq (rb : RingBuffer) (cs : List (List Nat)) :
    rb.appendAll cs = cs.foldl (fun acc d =>
      ((acc.1.append d).1, acc.2 && (acc.1.append d).2)) (rb, true) := rfl

/-- Folding appends of chunks of at most `maxBytes` bytes each keeps the
invariant, concatenates the history and preserves the success flag. -/
theorem ringFold_inv (cs : List (List Nat)) :
    ∀ rb hist b, (∀ c ∈ cs, c.length ≤ 8192) → RingInv rb hist →
      (cs.foldl (fun acc d =>
        ((acc.1.append d).1, acc.2 && (acc.1.append d).2)) (rb, b)).2 = b ∧
      RingInv (cs.foldl (fun acc d =>
        ((acc.1.append d).1, acc.2 && (acc.1.append d).2)) (rb, b)).1
        (hist ++ cs.flatten) := by
  induction cs with
  | nil =>
    intro rb hist b hc inv
    refine ⟨rfl, ?_⟩
    simpa using inv
  | cons c cs ih =>
    intro rb hist b hc inv
    simp only [List.foldl_cons]
    obtain ⟨hok, hinv⟩ := RingInv.append_pres inv c (hc c (by simp))
    rw [hok, Bool.and_true]
    have hrec := ih (rb.append c).1 (hist ++ c) (b && (rb.append c).2)
      (fun x hx => hc x (by simp [hx])) hinv
    rw [hok, Bool.and_true] at hrec
    refine ⟨hrec.1, ?_⟩
    have h3 := hrec.2
    rw [List.append_assoc] at h3
    simpa using h3

/-- C7: on a `RingBuffer` of capacity 8192 fed appends of at most 8192 bytes
each, every append completes normally and `getData()` returns exactly the most
recent `min(total bytes appended, 8192)` bytes of the appended data in time
order, so its length never exceeds 8192.  The restriction to appends of at
most 8192 bytes is necessary: a larger single append drives `length` negative
and makes `getData` throw (see the counterexample). -/
theorem c7_ring_buffer (chunks : List (List Nat))
    (h : ∀ c ∈ chunks, c.length ≤ 8192) :
    ((RingBuffer.ofCapacity 8192).appendAll chunks).2 = true ∧
    ((RingBuffer.ofCapacity 8192).appendAll chunks).1.getData =
      some (takeLastN chunks.flatten 8192) ∧
    (takeLastN chunks.flatten 8192).length ≤ 8192 := by
  have hfold := ringFold_inv chunks (RingBuffer.ofCapacity 8192) [] true h
    ringInv_init
  rw [← RingBuffer.appendAll_eq] at hfold
  obtain ⟨h1, h2⟩ := hfold
  refine ⟨h1, ?_, ?_⟩
  · have h3 := h2.getData_eq
    simpa using h3
  · unfold takeLastN
    rw [List.length_drop]
    omega

theorem c7_ring_buffer_witness :
    (∀ c ∈ ([[1, 2, 3], [4, 5]] : List (List Nat)), c.length ≤ 8192) ∧
    (((RingBuffer.ofCapacity 8192).appendAll [[1, 2, 3], [4, 5]]).2 = true ∧
     ((RingBuffer.ofCapacity 8192).appendAll [[1, 2, 3], [4, 5]]).1.getData =
       some (takeLastN ([[1, 2, 3], [4, 5]] : List (List Nat)).flatten 8192) ∧
     (takeLastN ([[1, 2, 3], [4, 5]] : List (List Nat)).flatten 8192).length ≤
       8192) :=
  ⟨by decide, c7_ring_buffer [[1, 2, 3], [4, 5]] (by decide)⟩
